import Mathlib

/-!
A shallow embedding of the external-dns endpoint-synthesis and
change-aggregation pipeline, together with theorems settling the claims
about it.

The embedding covers:
* the Shaman provider's change merger and apply driver
  (provider/shaman.go: mergeChanges, ApplyChanges);
* the service adapter (serviceSource: Endpoints, endpoints,
  generateEndpoints, extractHeadlessEndpoints, extractNodePortEndpoints,
  extractNodeTargets, extractServiceIps, extractLoadBalancerTargets);
* the ingress adapter (ingressSource: endpointsFromIngress and the
  per-ingress loop of Endpoints, targetsFromIngressStatus);
* the configuration pretty-printer (pkg/apis/externaldns/types.go:
  Config.String).

Helpers of the repository that are not part of the provided sources
(annotation parsing, suitableType, endpointsForHostname, the endpoint
constructors) are modelled from the specification; each such definition
carries a doc comment starting with "Modelled from the spec:".

Go string operations are modelled on the character list underlying a
Lean String, with structurally recursive definitions so that every
function evaluates inside the kernel.
-/

namespace ExternalDNS

/-! ## String helpers (models of the Go `strings` operations used) -/

/-- Model of `strings.Replace(s, " ", "", -1)`: remove every space. -/
def removeSpaces (s : String) : String :=
  ⟨s.data.filter (fun c => c ≠ ' ')⟩

/-- Split a character list at every occurrence of `sep`, keeping empty
segments — the semantics of Go `strings.Split` with a one-character
separator (in particular, splitting the empty string yields one empty
segment). -/
def splitCharList (sep : Char) (l : List Char) : List (List Char) :=
  l.foldr
    (fun c acc =>
      if c = sep then [] :: acc
      else
        match acc with
        | g :: gs => (c :: g) :: gs
        | [] => [[c]])
    [[]]

/-- Model of `strings.Split(s, sep)` for a one-character separator. -/
def splitOnChar (sep : Char) (s : String) : List String :=
  (splitCharList sep s.data).map (fun l => ⟨l⟩)

/-- Model of `strings.TrimSuffix(s, ".")`: drop one trailing dot when
present. -/
def trimSuffixDot (s : String) : String :=
  if s.data.getLast? = some '.' then ⟨s.data.dropLast⟩ else s

/-- Model of `strings.ToLower` (sufficient for protocol names such as
"TCP"). -/
def lowerString (s : String) : String :=
  ⟨s.data.map Char.toLower⟩

/-- Numeric value of a digit list (most significant first). -/
def natOfDigits (l : List Char) : Nat :=
  l.foldl (fun n c => n * 10 + (c.toNat - '0'.toNat)) 0

/-- Model of a non-negative integer parse (`strconv` on a digit
string): all characters are digits and the list is non-empty. -/
def parseNat (s : String) : Option Nat :=
  if s.data ≠ [] ∧ s.data.all Char.isDigit then some (natOfDigits s.data)
  else none

/-- Modelled from the spec: "a target string that parses as an IP
literal" — the dotted-quad IPv4 form accepted by `net.ParseIP`: four
dot-separated groups of one to three digits, each at most 255. -/
def isIPLiteral (s : String) : Bool :=
  let parts := splitCharList '.' s.data
  parts.length = 4 &&
    parts.all (fun p =>
      decide (p ≠ []) && decide (p.length ≤ 3) && p.all Char.isDigit &&
        decide (natOfDigits p ≤ 255))

/-! ## Record model -/

/-- The canonical DNS record intent (endpoint.Endpoint): name, type,
targets, TTL and labels.  TTL 0 means "unset" (endpoint.TTL's
IsConfigured is `ttl > 0`). -/
structure Endpoint where
  DNSName : String
  RecordType : String
  Targets : List String
  RecordTTL : Int
  Labels : List (String × String)
deriving DecidableEq

def RecordTypeA : String := "A"
def RecordTypeCNAME : String := "CNAME"
def RecordTypeSRV : String := "SRV"

/-- endpoint.TTL.IsConfigured(): the TTL is set iff it is positive. -/
def ttlIsConfigured (ttl : Int) : Bool := 0 < ttl

/-- Modelled from the spec: the endpoint constructor strips one
trailing dot from the name and starts with an empty label set
(endpoint.NewEndpointWithTTL). -/
def NewEndpointWithTTL (dnsName recordType : String) (ttl : Int)
    (targets : List String) : Endpoint :=
  { DNSName := trimSuffixDot dnsName
    RecordType := recordType
    Targets := targets
    RecordTTL := ttl
    Labels := [] }

/-- Modelled from the spec: endpoint.NewEndpoint — as above with the
TTL left unset. -/
def NewEndpoint (dnsName recordType : String) (targets : List String) :
    Endpoint :=
  NewEndpointWithTTL dnsName recordType 0 targets

/-! ## Shaman provider: data model (common.Resource / common.Record) -/

/-- common.Record: one concrete record line of a Shaman resource. -/
structure SRecord where
  Address : String
  RType : String
  Class : String
  TTL : Int
deriving DecidableEq

/-- common.Resource: one aggregate per domain, holding its records. -/
structure Resource where
  Domain : String
  Records : List SRecord
deriving DecidableEq

/-- plan.Changes: the four classified change lists. -/
structure Changes where
  Create : List Endpoint
  UpdateOld : List Endpoint
  UpdateNew : List Endpoint
  Delete : List Endpoint
deriving DecidableEq

/-- convertTargets (provider/shaman.go): one common.Record per target,
class "IN", carrying the endpoint's type and TTL. -/
def convertTargets (e : Endpoint) : List SRecord :=
  e.Targets.map (fun t =>
    { Address := t, RType := e.RecordType, Class := "IN", TTL := e.RecordTTL })

/-- One step of building the name-grouping map of mergeChanges: if the
name is absent, insert a fresh resource for it; then append the
converted targets of the endpoint to that name's record list.  The Go
map is modelled as an association list in first-insertion order (Go
map iteration order is unspecified; every property proved about the
merge output is insensitive to the order of distinct names). -/
def mergeInsert (m : List (String × Resource)) (e : Endpoint) :
    List (String × Resource) :=
  if m.any (fun p => p.1 == e.DNSName) then
    m.map (fun p =>
      if p.1 == e.DNSName then
        (p.1, { p.2 with Records := p.2.Records ++ convertTargets e })
      else p)
  else
    m ++ [(e.DNSName, { Domain := e.DNSName, Records := convertTargets e })]

/-- The grouping map of mergeChanges (the `m` of the Go code). -/
def mergeMap (changes : List Endpoint) : List (String × Resource) :=
  changes.foldl mergeInsert []

/-- mergeChanges (provider/shaman.go, lines 126-143).  Faithful to the
source: `values := make([]*common.Resource, len(m))` allocates a slice
that already holds `len(m)` nil pointers, and the loop then appends
the aggregates after them, so the returned slice has `2 * len(m)`
entries, the first half of which are nil (here `none`). -/
def mergeChanges (changes : List Endpoint) : List (Option Resource) :=
  List.replicate (mergeMap changes).length none
    ++ (mergeMap changes).map (fun p => some p.2)

/-! ## Shaman provider: apply driver -/

/-- The write calls the provider client can receive.  Create and update
forward the (possibly nil) resource pointer to the client; delete
dereferences the pointer first (`endpoint.Domain`) and passes only the
domain string. -/
inductive WriteCall where
  | create (r : Option Resource)
  | update (r : Option Resource)
  | delete (domain : String)
deriving DecidableEq

/-- Which of the four sub-steps of ApplyChanges issued a call. -/
inductive Phase where
  | create
  | delete
  | updateNew
  | updateOld
deriving DecidableEq

/-- Position of a phase in the fixed apply sequence. -/
def Phase.idx : Phase → Nat
  | .create => 0
  | .delete => 1
  | .updateNew => 2
  | .updateOld => 3

/-- One provider write call as recorded in the trace, with the phase
that issued it and the error the client answered (none = success). -/
structure TraceEntry where
  phase : Phase
  call : WriteCall
  result : Option String
deriving DecidableEq

/-- How a run of ApplyChanges ends: returning nil, returning the first
write error, or a runtime nil-pointer panic. -/
inductive Outcome where
  | ok
  | failed (e : String)
  | panicked
deriving DecidableEq

/-- The abstract Shaman client: each API call either succeeds (none)
or yields an error, as a function of the call's payload. -/
structure ClientModel where
  AddRecord : Option Resource → Option String
  UpdateRecord : Option Resource → Option String
  DeleteRecord : String → Option String

/-- Result of attempting one element of a merged list: either a client
call was made (with the client's answer), or the attempt panicked
before reaching the client. -/
inductive StepResult where
  | callMade (c : WriteCall) (res : Option String)
  | panicked
deriving DecidableEq

/-- shaman.create: forwards the pointer to client.AddRecord. -/
def doCreate (cl : ClientModel) (r : Option Resource) : StepResult :=
  .callMade (.create r) (cl.AddRecord r)

/-- shaman.update: forwards the pointer to client.UpdateRecord. -/
def doUpdate (cl : ClientModel) (r : Option Resource) : StepResult :=
  .callMade (.update r) (cl.UpdateRecord r)

/-- shaman.delete: reads `endpoint.Domain` before calling the client,
so a nil resource pointer panics without any client call. -/
def doDelete (cl : ClientModel) (r : Option Resource) : StepResult :=
  match r with
  | none => .panicked
  | some res => .callMade (.delete res.Domain) (cl.DeleteRecord res.Domain)

/-- One sub-step loop of ApplyChanges: walk the merged list, record
each client call, and stop at the first error (returning it) or at a
panic. -/
def runList (p : Phase) (step : Option Resource → StepResult) :
    List (Option Resource) → List TraceEntry × Outcome
  | [] => ([], .ok)
  | r :: rest =>
    match step r with
    | .panicked => ([], .panicked)
    | .callMade c (some e) => ([⟨p, c, some e⟩], .failed e)
    | .callMade c none =>
      let t := runList p step rest
      (⟨p, c, none⟩ :: t.1, t.2)

/-- Sequence two sub-steps: the second runs only when the first ended
with nil. -/
def andThen (a : List TraceEntry × Outcome)
    (b : Unit → List TraceEntry × Outcome) : List TraceEntry × Outcome :=
  match a with
  | (t, .ok) => let r := b (); (t ++ r.1, r.2)
  | other => other

/-- The client-call trace and final outcome of ApplyChanges
(provider/shaman.go, lines 89-124): nothing on dry-run, otherwise the
merged Creates, then Deletes, then UpdateNew, then UpdateOld, each
sub-step short-circuiting the rest on its first error. -/
def applyTrace (cl : ClientModel) (dryRun : Bool) (changes : Changes) :
    List TraceEntry × Outcome :=
  if dryRun then ([], .ok)
  else
    andThen (runList .create (doCreate cl) (mergeChanges changes.Create))
      (fun _ =>
        andThen (runList .delete (doDelete cl) (mergeChanges changes.Delete))
          (fun _ =>
            andThen
              (runList .updateNew (doUpdate cl) (mergeChanges changes.UpdateNew))
              (fun _ =>
                runList .updateOld (doUpdate cl)
                  (mergeChanges changes.UpdateOld))))

/-- An observable event of one ApplyChanges execution: a client call,
or the OnApplyChanges observation hook firing with a change batch. -/
inductive ApplyEvent where
  | call (e : TraceEntry)
  | hook (changes : Changes)
deriving DecidableEq

/-- Whether an event is the observation hook firing. -/
def ApplyEvent.isHook : ApplyEvent → Bool
  | .hook _ => true
  | .call _ => false

/-- Full observable behaviour of one ApplyChanges execution. -/
structure ApplyResult where
  events : List ApplyEvent
  outcome : Outcome
deriving DecidableEq

/-- ApplyChanges (provider/shaman.go): the deferred OnApplyChanges hook
fires with the original batch on every exit path — normal return,
error return, and panic unwinding alike — after all client calls. -/
def ApplyChanges (cl : ClientModel) (dryRun : Bool) (changes : Changes) :
    ApplyResult :=
  let r := applyTrace cl dryRun changes
  { events := r.1.map ApplyEvent.call ++ [ApplyEvent.hook changes]
    outcome := r.2 }

/-! ## Kubernetes resource snapshot (read-only input of the adapters) -/

/-- v1.ServiceType. -/
inductive ServiceType where
  | LoadBalancer
  | ClusterIP
  | NodePort
  | ExternalName
deriving DecidableEq

/-- The string form of a service type, as used by the type filter. -/
def serviceTypeString : ServiceType → String
  | .LoadBalancer => "LoadBalancer"
  | .ClusterIP => "ClusterIP"
  | .NodePort => "NodePort"
  | .ExternalName => "ExternalName"

/-- v1.ServicePort (the fields read by the adapter). -/
structure ServicePort where
  Name : String
  Protocol : String
  NodePort : Int
deriving DecidableEq

/-- v1.LoadBalancerIngress: one load-balancer status entry. -/
structure LoadBalancerIngress where
  IP : String
  Hostname : String
deriving DecidableEq

/-- v1.Service (the fields read by the adapter).  The pod selector is
not modelled separately: the pod listing takes the whole service. -/
structure Service where
  Namespace : String
  Name : String
  Annotations : List (String × String)
  SpecType : ServiceType
  SpecClusterIP : String
  SpecPorts : List ServicePort
  StatusLoadBalancerIngress : List LoadBalancerIngress
deriving DecidableEq

/-- v1.Pod (the fields read by extractHeadlessEndpoints). -/
structure Pod where
  SpecHostname : String
  StatusPodIP : String
  StatusHostIP : String
  StatusPhase : String
deriving DecidableEq

/-- v1.NodeAddressType (the two cases the adapter distinguishes). -/
inductive NodeAddressType where
  | ExternalIP
  | InternalIP
  | OtherAddress
deriving DecidableEq

/-- One entry of a node's status address list (`AddrType` stands for
the Go field `Type`, a Lean keyword). -/
structure NodeAddress where
  AddrType : NodeAddressType
  Address : String
deriving DecidableEq

/-- v1.Node (the fields read by extractNodeTargets). -/
structure Node where
  Addresses : List NodeAddress
deriving DecidableEq

/-- A Kubernetes API error: `forbidden` models errors.IsForbidden. -/
structure KErr where
  forbidden : Bool
  msg : String
deriving DecidableEq

/-- The cluster client's answers for one Endpoints run: the service
list, the node list, and the pod list backing each headless service. -/
structure Cluster where
  servicesRes : Except KErr (List Service)
  nodesRes : Except KErr (List Node)
  podsFor : Service → Except KErr (List Pod)

/-! ## Shared annotation helpers -/

def hostnameAnnotationKey : String := "external-dns.alpha.kubernetes.io/hostname"
def targetAnnotationKey : String := "external-dns.alpha.kubernetes.io/target"
def ttlAnnotationKey : String := "external-dns.alpha.kubernetes.io/ttl"
def controllerAnnotationKey : String := "external-dns.alpha.kubernetes.io/controller"
def controllerAnnotationValue : String := "dns-controller"
def ResourceLabelKey : String := "resource"

/-- Lookup in an annotation map (modelled as an association list with
unique keys). -/
def lookupAnnotation (ann : List (String × String)) (k : String) :
    Option String :=
  (ann.find? (fun p => p.1 == k)).map (fun p => p.2)

/-- Go map assignment on a label map modelled as an association list. -/
def setLabel (ls : List (String × String)) (k v : String) :
    List (String × String) :=
  if ls.any (fun p => p.1 == k) then
    ls.map (fun p => if p.1 == k then (k, v) else p)
  else ls ++ [(k, v)]

/-- Modelled from the spec: getHostnamesFromAnnotations — the explicit
multi-value hostname annotation is a comma-separated list with
whitespace removed; an absent annotation supplies no hostnames. -/
def getHostnamesFromAnnotations (ann : List (String × String)) :
    List String :=
  match lookupAnnotation ann hostnameAnnotationKey with
  | none => []
  | some v => splitOnChar ',' (removeSpaces v)

/-- Modelled from the spec: getTargetsFromTargetAnnotation — the
explicit target-override annotation, comma-separated; the gateway
tests in the sources show that an empty annotation value yields no
targets. -/
def getTargetsFromTargetAnnotation (ann : List (String × String)) :
    List String :=
  match lookupAnnotation ann targetAnnotationKey with
  | none => []
  | some v => if v = "" then [] else splitOnChar ',' (removeSpaces v)

/-- Modelled from the spec: getTTLFromAnnotations — read from the TTL
annotation; absent or unparsable means unset (0), synthesis proceeds. -/
def getTTLFromAnnotations (ann : List (String × String)) : Int :=
  match lookupAnnotation ann ttlAnnotationKey with
  | none => 0
  | some v =>
    match parseNat v with
    | some n => (n : Int)
    | none => 0

/-- Modelled from the spec: suitableType — a target string that parses
as an IP literal contributes to an A record; anything else to a CNAME
record. -/
def suitableType (t : String) : String :=
  if isIPLiteral t then RecordTypeA else RecordTypeCNAME

/-- Modelled from the spec: the target-sorting comparison — lexical
ordering of the string form (character-wise). -/
def charListLe : List Char → List Char → Bool
  | [], _ => true
  | _ :: _, [] => false
  | a :: as, b :: bs => if a = b then charListLe as bs else decide (a < b)

/-- Insert a target into an already sorted target list. -/
def insertTarget (t : String) : List String → List String
  | [] => [t]
  | x :: xs => if charListLe t.data x.data then t :: x :: xs else x :: insertTarget t xs

/-- Modelled from the spec: `sort.Sort(ep.Targets)` — sort the target
list lexically so synthesis is deterministic. -/
def sortTargets (ts : List String) : List String :=
  ts.foldr insertTarget []

/-! ## Service adapter (serviceSource) -/

/-- The immutable configuration of a serviceSource.  The annotation
filter is modelled as the already-parsed selector (none = empty
selector, matching everything); the FQDN template as the already-
compiled render function, which may fail like template.Execute. -/
structure ServiceConfig where
  annotationFilter : Option (List (String × String) → Bool)
  compatibility : String
  combineFQDNAnnotation : Bool
  publishInternal : Bool
  publishHostIP : Bool
  fqdnTemplate : Option (Service → Except KErr String)
  serviceTypeFilter : List String

/-- extractServiceIps: the cluster IP, unless the service is headless. -/
def extractServiceIps (svc : Service) : List String :=
  if svc.SpecClusterIP = "None" then [] else [svc.SpecClusterIP]

/-- extractLoadBalancerTargets: each status entry contributes its IP
and/or hostname, in order. -/
def extractLoadBalancerTargets (svc : Service) : List String :=
  svc.StatusLoadBalancerIngress.flatMap (fun lb =>
    (if lb.IP = "" then [] else [lb.IP])
      ++ (if lb.Hostname = "" then [] else [lb.Hostname]))

/-- The `externalIPs` accumulator of extractNodeTargets. -/
def nodeExternalIPs (nodes : List Node) : List String :=
  nodes.flatMap (fun n =>
    n.Addresses.filterMap (fun a =>
      if a.AddrType = NodeAddressType.ExternalIP then some a.Address else none))

/-- The `internalIPs` accumulator of extractNodeTargets. -/
def nodeInternalIPs (nodes : List Node) : List String :=
  nodes.flatMap (fun n =>
    n.Addresses.filterMap (fun a =>
      if a.AddrType = NodeAddressType.InternalIP then some a.Address else none))

/-- extractNodeTargets: a forbidden listing error degrades to an empty
target list without error; any other listing error is surfaced.  On
success, external IPs are preferred and internal IPs are the fallback. -/
def extractNodeTargets (nodesRes : Except KErr (List Node)) :
    Except KErr (List String) :=
  match nodesRes with
  | .error e => if e.forbidden then .ok [] else .error e
  | .ok nodes =>
    if (nodeExternalIPs nodes).isEmpty then .ok (nodeInternalIPs nodes)
    else .ok (nodeExternalIPs nodes)

/-- The `headlessDomain` computation of extractHeadlessEndpoints: the
pod's own hostname, when set, becomes a subdomain of the service
hostname. -/
def headlessDomainOf (v : Pod) (hostname : String) : String :=
  if v.SpecHostname = "" then hostname
  else v.SpecHostname ++ "." ++ hostname

/-- The target of a headless pod record: the host IP or the pod IP,
per configuration. -/
def headlessTargetOf (cfg : ServiceConfig) (v : Pod) : String :=
  if cfg.publishHostIP then v.StatusHostIP else v.StatusPodIP

/-- extractHeadlessEndpoints: a pod listing error is logged and
swallowed (the function returns no endpoints, it does not surface the
error); otherwise every running pod contributes one A record under the
per-pod subdomain.  (The source checks the running phase inside each
of the two host-IP/pod-IP branches; the check is identical in both, so
it is factored out here.) -/
def extractHeadlessEndpoints (cfg : ServiceConfig)
    (podsFor : Service → Except KErr (List Pod)) (svc : Service)
    (hostname : String) (ttl : Int) : List Endpoint :=
  match podsFor svc with
  | .error _ => []
  | .ok pods =>
    pods.flatMap (fun v =>
      if v.StatusPhase = "Running" then
        if ttlIsConfigured ttl then
          [NewEndpointWithTTL (headlessDomainOf v hostname) RecordTypeA ttl
            [headlessTargetOf cfg v]]
        else
          [NewEndpoint (headlessDomainOf v hostname) RecordTypeA
            [headlessTargetOf cfg v]]
      else [])

/-- The `portName` local of extractNodePortEndpoints: the port name,
falling back to the node-port number when unnamed. -/
def nodePortName (port : ServicePort) : String :=
  if port.Name = "" then toString port.NodePort else port.Name

/-- The `protocol` local of extractNodePortEndpoints: the lower-cased
protocol, falling back to "tcp" when unset. -/
def nodePortProtocol (port : ServicePort) : String :=
  if lowerString port.Protocol = "" then "tcp" else lowerString port.Protocol

/-- The `recordName` local of extractNodePortEndpoints. -/
def nodePortRecordName (port : ServicePort) (hostname : String) : String :=
  "_" ++ nodePortName port ++ "._" ++ nodePortProtocol port ++ "." ++ hostname

/-- The `target` local of extractNodePortEndpoints: fixed priority 0
and weight 50. -/
def nodePortTarget (port : ServicePort) (hostname : String) : String :=
  "0 50 " ++ toString port.NodePort ++ " " ++ hostname

/-- extractNodePortEndpoints: every declared port with a positive node
port yields one SRV record named `_<port-name-or-number>._<protocol>.h`
with the single target "0 50 <node-port> h".  (The nodeTargets
parameter is unused, as in the source.) -/
def extractNodePortEndpoints (svc : Service) (nodeTargets : List String)
    (hostname : String) (ttl : Int) : List Endpoint :=
  svc.SpecPorts.flatMap (fun port =>
    if 0 < port.NodePort then
      if ttlIsConfigured ttl then
        [NewEndpointWithTTL (nodePortRecordName port hostname) RecordTypeSRV
          ttl [nodePortTarget port hostname]]
      else
        [NewEndpoint (nodePortRecordName port hostname) RecordTypeSRV
          [nodePortTarget port hostname]]
    else [])

/-- The `targets` accumulator of generateEndpoints' type switch:
load-balancer status targets, the internal cluster IP when its
publication is enabled, or the node targets for node-routed services. -/
def discoveredTargets (cfg : ServiceConfig) (svc : Service)
    (nodeTargets : List String) : List String :=
  match svc.SpecType with
  | .LoadBalancer => extractLoadBalancerTargets svc
  | .ClusterIP => if cfg.publishInternal then extractServiceIps svc else []
  | .NodePort => nodeTargets
  | .ExternalName => []

/-- The `endpoints` accumulator of generateEndpoints' type switch:
headless per-pod records for headless cluster-IP services and SRV
records for node-routed services. -/
def extraEndpoints (cfg : ServiceConfig)
    (podsFor : Service → Except KErr (List Pod)) (svc : Service)
    (hostname : String) (ttl : Int) (nodeTargets : List String) :
    List Endpoint :=
  match svc.SpecType with
  | .ClusterIP =>
    if svc.SpecClusterIP = "None" then
      extractHeadlessEndpoints cfg podsFor svc hostname ttl
    else []
  | .NodePort => extractNodePortEndpoints svc nodeTargets hostname ttl
  | _ => []

/-- The `epA.Targets` accumulator after target classification. -/
def classATargets (cfg : ServiceConfig) (svc : Service)
    (nodeTargets : List String) : List String :=
  (discoveredTargets cfg svc nodeTargets).filter
    (fun t => suitableType t == RecordTypeA)

/-- The `epCNAME.Targets` accumulator after target classification. -/
def classCNAMETargets (cfg : ServiceConfig) (svc : Service)
    (nodeTargets : List String) : List String :=
  (discoveredTargets cfg svc nodeTargets).filter
    (fun t => suitableType t == RecordTypeCNAME)

/-- generateEndpoints: trim one trailing dot from the hostname, read
the TTL annotation, collect the targets for the service's exposure
mode, classify every target into the A or the CNAME accumulator
record, and keep each accumulator only when non-empty, after any
headless/SRV records. -/
def generateEndpoints (cfg : ServiceConfig)
    (podsFor : Service → Except KErr (List Pod)) (svc : Service)
    (hostname : String) (nodeTargets : List String) : List Endpoint :=
  extraEndpoints cfg podsFor svc (trimSuffixDot hostname)
      (getTTLFromAnnotations svc.Annotations) nodeTargets
    ++ (if (classATargets cfg svc nodeTargets).isEmpty then []
        else [{ DNSName := trimSuffixDot hostname, RecordType := RecordTypeA,
                Targets := classATargets cfg svc nodeTargets,
                RecordTTL := getTTLFromAnnotations svc.Annotations,
                Labels := [] }])
    ++ (if (classCNAMETargets cfg svc nodeTargets).isEmpty then []
        else [{ DNSName := trimSuffixDot hostname,
                RecordType := RecordTypeCNAME,
                Targets := classCNAMETargets cfg svc nodeTargets,
                RecordTTL := getTTLFromAnnotations svc.Annotations,
                Labels := [] }])

/-- sc.endpoints: one generateEndpoints pass per annotation hostname. -/
def serviceOwnEndpoints (cfg : ServiceConfig)
    (podsFor : Service → Except KErr (List Pod)) (svc : Service)
    (nodeTargets : List String) : List Endpoint :=
  (getHostnamesFromAnnotations svc.Annotations).flatMap (fun hostname =>
    generateEndpoints cfg podsFor svc hostname nodeTargets)

/-- sc.endpointsFromTemplate: render the template (surfacing a render
error), split the output on commas with spaces removed, and run
generateEndpoints on every piece. -/
def endpointsFromTemplate (f : Service → Except KErr String)
    (cfg : ServiceConfig) (podsFor : Service → Except KErr (List Pod))
    (svc : Service) (nodeTargets : List String) :
    Except KErr (List Endpoint) :=
  match f svc with
  | .error e => .error e
  | .ok rendered =>
    .ok (((splitOnChar ',' (removeSpaces rendered))).flatMap (fun hostname =>
      generateEndpoints cfg podsFor svc hostname nodeTargets))

/-- The template clause of the Endpoints loop: the template applies
when the combine flag is set or nothing was found so far; with combine
its output is appended, otherwise it replaces. -/
def templateStep (cfg : ServiceConfig)
    (podsFor : Service → Except KErr (List Pod)) (svc : Service)
    (nodeTargets : List String) (cur : List Endpoint) :
    Except KErr (List Endpoint) :=
  match cfg.fqdnTemplate with
  | none => .ok cur
  | some f =>
    if cfg.combineFQDNAnnotation || cur.isEmpty then
      match endpointsFromTemplate f cfg podsFor svc nodeTargets with
      | .error e => .error e
      | .ok sEndpoints =>
        .ok (if cfg.combineFQDNAnnotation then cur ++ sEndpoints
             else sEndpoints)
    else .ok cur

/-- The controller-ownership check: skip a resource carrying a foreign
controller annotation. -/
def controllerSkip (ann : List (String × String)) : Bool :=
  match lookupAnnotation ann controllerAnnotationKey with
  | some v => v != controllerAnnotationValue
  | none => false

/-- sc.setResourceLabel: stamp every produced record with
"service/<namespace>/<name>". -/
def setResourceLabelService (svc : Service) (eps : List Endpoint) :
    List Endpoint :=
  eps.map (fun ep =>
    let value := "service/" ++ svc.Namespace ++ "/" ++ svc.Name
    { ep with Labels := setLabel ep.Labels ResourceLabelKey value })

/-- filterByAnnotations, with the selector already parsed: the empty
selector returns the original list. -/
def filterByAnnotations (sel : Option (List (String × String) → Bool))
    (items : List Service) : List Service :=
  match sel with
  | none => items
  | some matches_ => items.filter (fun svc => matches_ svc.Annotations)

/-- filterByServiceType: keep services whose type is in the filter. -/
def filterByServiceType (filterTypes : List String)
    (items : List Service) : List Service :=
  items.filter (fun svc => filterTypes.contains (serviceTypeString svc.SpecType))

/-- The per-service loop of serviceSource.Endpoints: skip foreign
resources, collect annotation-hostname endpoints, fall back to the
legacy-compatibility synthesis when nothing was found and a
compatibility mode is set, apply the template clause (aborting the
whole run on a render error), skip services that still produced
nothing, and stamp the resource label.  The legacy synthesis is
repository code outside the provided sources and is therefore a
parameter. -/
def processServices (cfg : ServiceConfig)
    (legacy : Service → List Endpoint)
    (podsFor : Service → Except KErr (List Pod))
    (nodeTargets : List String) : List Service → Except KErr (List Endpoint)
  | [] => .ok []
  | svc :: rest =>
    if controllerSkip svc.Annotations then
      processServices cfg legacy podsFor nodeTargets rest
    else
      let own := serviceOwnEndpoints cfg podsFor svc nodeTargets
      let own :=
        if own.isEmpty && !(cfg.compatibility = "") then legacy svc else own
      match templateStep cfg podsFor svc nodeTargets own with
      | .error e => .error e
      | .ok svcEndpoints =>
        match processServices cfg legacy podsFor nodeTargets rest with
        | .error e => .error e
        | .ok remaining =>
          .ok ((if svcEndpoints.isEmpty then []
                else setResourceLabelService svc svcEndpoints) ++ remaining)

/-- serviceSource.Endpoints: list services (aborting on failure),
filter by annotations and service types, resolve the node targets
(aborting on a non-forbidden failure), process every service, and
sort every record's target list. -/
def serviceEndpoints (cfg : ServiceConfig)
    (legacy : Service → List Endpoint) (cluster : Cluster) :
    Except KErr (List Endpoint) :=
  match cluster.servicesRes with
  | .error e => .error e
  | .ok items =>
    let items := filterByAnnotations cfg.annotationFilter items
    let items :=
      if cfg.serviceTypeFilter.isEmpty then items
      else filterByServiceType cfg.serviceTypeFilter items
    match extractNodeTargets cluster.nodesRes with
    | .error e => .error e
    | .ok nodeTargets =>
      match processServices cfg legacy cluster.podsFor nodeTargets items with
      | .error e => .error e
      | .ok endpoints =>
        .ok (endpoints.map (fun ep =>
          { ep with Targets := sortTargets ep.Targets }))

/-! ## Ingress adapter (ingressSource) -/

/-- One ingress rule (only the host is read). -/
structure IngressRule where
  Host : String
deriving DecidableEq

/-- One ingress TLS entry (only the host list is read). -/
structure IngressTLS where
  Hosts : List String
deriving DecidableEq

/-- v1beta1.Ingress (the fields read by the adapter). -/
structure Ingress where
  Namespace : String
  Name : String
  Annotations : List (String × String)
  SpecRules : List IngressRule
  SpecTLS : List IngressTLS
  StatusLoadBalancerIngress : List LoadBalancerIngress
deriving DecidableEq

/-- targetsFromIngressStatus: each load-balancer status entry
contributes its IP and/or hostname, in order. -/
def targetsFromIngressStatus (status : List LoadBalancerIngress) :
    List String :=
  status.flatMap (fun lb =>
    (if lb.IP = "" then [] else [lb.IP])
      ++ (if lb.Hostname = "" then [] else [lb.Hostname]))

/-- The target resolution shared by both ingress synthesis paths: the
target-override annotation takes priority, the load-balancer status is
the fallback. -/
def ingressTargets (ing : Ingress) : List String :=
  let fromAnnotation := getTargetsFromTargetAnnotation ing.Annotations
  if fromAnnotation.isEmpty then
    targetsFromIngressStatus ing.StatusLoadBalancerIngress
  else fromAnnotation

/-- Modelled from the spec: endpointsForHostname — two parallel
accumulator records per hostname, an A record from the IP-literal
targets and a CNAME record from the rest, each kept only when
non-empty. -/
def endpointsForHostname (hostname : String) (targets : List String)
    (ttl : Int) : List Endpoint :=
  let ips := targets.filter (fun t => suitableType t == RecordTypeA)
  let cnames := targets.filter (fun t => suitableType t == RecordTypeCNAME)
  (if ips.isEmpty then []
   else [{ DNSName := hostname, RecordType := RecordTypeA, Targets := ips,
           RecordTTL := ttl, Labels := [] }])
    ++ (if cnames.isEmpty then []
        else [{ DNSName := hostname, RecordType := RecordTypeCNAME,
                Targets := cnames, RecordTTL := ttl, Labels := [] }])

/-- endpointsFromIngress (source/ingress.go, lines 199-237): records
for every non-empty rule host, then every non-empty TLS host, then
every annotation hostname — all three sections, one after the other. -/
def endpointsFromIngress (ing : Ingress) : List Endpoint :=
  let ttl := getTTLFromAnnotations ing.Annotations
  let targets := ingressTargets ing
  (ing.SpecRules.flatMap (fun rule =>
      if rule.Host = "" then [] else endpointsForHostname rule.Host targets ttl))
    ++ (ing.SpecTLS.flatMap (fun tls =>
        tls.Hosts.flatMap (fun host =>
          if host = "" then [] else endpointsForHostname host targets ttl)))
    ++ ((getHostnamesFromAnnotations ing.Annotations).flatMap (fun hostname =>
        endpointsForHostname hostname targets ttl))

/-- The immutable configuration of an ingressSource. -/
structure IngressConfig where
  combineFQDNAnnotation : Bool
  fqdnTemplate : Option (Ingress → Except KErr String)

/-- ingressSource.endpointsFromTemplate: render, split on commas with
spaces removed, trim each piece's trailing dot, and synthesise per
hostname with the shared targets. -/
def ingressEndpointsFromTemplate (f : Ingress → Except KErr String)
    (ing : Ingress) : Except KErr (List Endpoint) :=
  match f ing with
  | .error e => .error e
  | .ok rendered =>
    let ttl := getTTLFromAnnotations ing.Annotations
    let targets := ingressTargets ing
    .ok ((splitOnChar ',' (removeSpaces rendered)).flatMap (fun hostname =>
      endpointsForHostname (trimSuffixDot hostname) targets ttl))

/-- setResourceLabel for ingresses. -/
def setResourceLabelIngress (ing : Ingress) (eps : List Endpoint) :
    List Endpoint :=
  eps.map (fun ep =>
    let value := "ingress/" ++ ing.Namespace ++ "/" ++ ing.Name
    { ep with Labels := setLabel ep.Labels ResourceLabelKey value })

/-- The per-ingress loop of ingressSource.Endpoints (lines 86-119). -/
def processIngresses (cfg : IngressConfig) :
    List Ingress → Except KErr (List Endpoint)
  | [] => .ok []
  | ing :: rest =>
    if controllerSkip ing.Annotations then processIngresses cfg rest
    else
      let ingEndpoints := endpointsFromIngress ing
      let stepRes :=
        match cfg.fqdnTemplate with
        | none => Except.ok ingEndpoints
        | some f =>
          if cfg.combineFQDNAnnotation || ingEndpoints.isEmpty then
            match ingressEndpointsFromTemplate f ing with
            | .error e => .error e
            | .ok iEndpoints =>
              .ok (if cfg.combineFQDNAnnotation then
                     ingEndpoints ++ iEndpoints
                   else iEndpoints)
          else .ok ingEndpoints
      match stepRes with
      | .error e => .error e
      | .ok ingEndpoints =>
        match processIngresses cfg rest with
        | .error e => .error e
        | .ok remaining =>
          .ok ((if ingEndpoints.isEmpty then []
                else setResourceLabelIngress ing ingEndpoints) ++ remaining)

/-- ingressSource.Endpoints over the (already listed and filtered)
ingress list, with the final per-record target sort. -/
def ingressEndpoints (cfg : IngressConfig) (ingresses : List Ingress) :
    Except KErr (List Endpoint) :=
  match processIngresses cfg ingresses with
  | .error e => .error e
  | .ok endpoints =>
    .ok (endpoints.map (fun ep =>
      { ep with Targets := sortTargets ep.Targets }))

/-! ## Configuration pretty-printer (pkg/apis/externaldns/types.go) -/

/-- The project-wide configuration.  The Interval duration is modelled
as its nanosecond count; the Go field TXTPrefix is rendered here as
TXTPrefixValue. -/
structure Config where
  Master : String
  KubeConfig : String
  Sources : List String
  Namespace : String
  AnnotationFilter : String
  FQDNTemplate : String
  Compatibility : String
  PublishInternal : Bool
  Provider : String
  GoogleProject : String
  DomainFilter : List String
  ZoneIDFilter : List String
  AWSZoneType : String
  AzureConfigFile : String
  AzureResourceGroup : String
  CloudflareProxied : Bool
  InfobloxGridHost : String
  InfobloxWapiPort : Int
  InfobloxWapiUsername : String
  InfobloxWapiPassword : String
  InfobloxWapiVersion : String
  InfobloxSSLVerify : Bool
  DynCustomerName : String
  DynUsername : String
  DynPassword : String
  DynMinTTLSeconds : Int
  InMemoryZones : List String
  ShamanHost : String
  ShamanToken : String
  Policy : String
  Registry : String
  TXTOwnerID : String
  TXTPrefixValue : String
  Interval : Int
  Once : Bool
  DryRun : Bool
  LogFormat : String
  MetricsAddress : String
  LogLevel : String
deriving DecidableEq

def passwordMask : String := "******"

/-- The `temp` computation of Config.String: work on a copy of the
receiver, masking each of the two password fields when non-empty (the
two Go `if` statements touch distinct fields, so they are one
simultaneous update). -/
def maskPasswords (cfg : Config) : Config :=
  { cfg with
    DynPassword :=
      if cfg.DynPassword ≠ "" then passwordMask else cfg.DynPassword
    InfobloxWapiPassword :=
      if cfg.InfobloxWapiPassword ≠ "" then passwordMask
      else cfg.InfobloxWapiPassword }

def renderBool (b : Bool) : String := if b then "true" else "false"

def renderStringList (l : List String) : String :=
  "[" ++ String.intercalate " " l ++ "]"

/-- The `fmt.Sprintf("%+v", ...)` rendering: every field in
declaration order as `Name:value`, space-separated, inside braces.
(The Duration field is rendered through its integer model.) -/
def formatConfig (c : Config) : String :=
  "\x7bMaster:" ++ c.Master
    ++ " KubeConfig:" ++ c.KubeConfig
    ++ " Sources:" ++ renderStringList c.Sources
    ++ " Namespace:" ++ c.Namespace
    ++ " AnnotationFilter:" ++ c.AnnotationFilter
    ++ " FQDNTemplate:" ++ c.FQDNTemplate
    ++ " Compatibility:" ++ c.Compatibility
    ++ " PublishInternal:" ++ renderBool c.PublishInternal
    ++ " Provider:" ++ c.Provider
    ++ " GoogleProject:" ++ c.GoogleProject
    ++ " DomainFilter:" ++ renderStringList c.DomainFilter
    ++ " ZoneIDFilter:" ++ renderStringList c.ZoneIDFilter
    ++ " AWSZoneType:" ++ c.AWSZoneType
    ++ " AzureConfigFile:" ++ c.AzureConfigFile
    ++ " AzureResourceGroup:" ++ c.AzureResourceGroup
    ++ " CloudflareProxied:" ++ renderBool c.CloudflareProxied
    ++ " InfobloxGridHost:" ++ c.InfobloxGridHost
    ++ " InfobloxWapiPort:" ++ toString c.InfobloxWapiPort
    ++ " InfobloxWapiUsername:" ++ c.InfobloxWapiUsername
    ++ " InfobloxWapiPassword:" ++ c.InfobloxWapiPassword
    ++ " InfobloxWapiVersion:" ++ c.InfobloxWapiVersion
    ++ " InfobloxSSLVerify:" ++ renderBool c.InfobloxSSLVerify
    ++ " DynCustomerName:" ++ c.DynCustomerName
    ++ " DynUsername:" ++ c.DynUsername
    ++ " DynPassword:" ++ c.DynPassword
    ++ " DynMinTTLSeconds:" ++ toString c.DynMinTTLSeconds
    ++ " InMemoryZones:" ++ renderStringList c.InMemoryZones
    ++ " ShamanHost:" ++ c.ShamanHost
    ++ " ShamanToken:" ++ c.ShamanToken
    ++ " Policy:" ++ c.Policy
    ++ " Registry:" ++ c.Registry
    ++ " TXTOwnerID:" ++ c.TXTOwnerID
    ++ " TXTPrefixValue:" ++ c.TXTPrefixValue
    ++ " Interval:" ++ toString c.Interval
    ++ " Once:" ++ renderBool c.Once
    ++ " DryRun:" ++ renderBool c.DryRun
    ++ " LogFormat:" ++ c.LogFormat
    ++ " MetricsAddress:" ++ c.MetricsAddress
    ++ " LogLevel:" ++ c.LogLevel
    ++ "\x7d"

/-- Config.String: format the masked copy; the receiver itself is only
read (the Go code copies it into `temp` before masking). -/
def configString (cfg : Config) : String :=
  formatConfig (maskPasswords cfg)

/-! ## Auxiliary predicates used by the theorems below -/

/-- The shape invariant of a sub-step trace: either every recorded
call succeeded, or the trace ends at its first failing call and the
outcome carries that call's error. -/
def TraceOk (r : List TraceEntry × Outcome) : Prop :=
  (∀ x ∈ r.1, x.result = none) ∨
    (∃ t0 last e, r.1 = t0 ++ [last] ∧ last.result = some e ∧
      r.2 = Outcome.failed e ∧ ∀ x ∈ t0, x.result = none)

/-- The endpoint list of a successful adapter run (empty on error);
used to state concrete counterexamples. -/
def okOrNil (r : Except KErr (List Endpoint)) : List Endpoint :=
  match r with
  | .ok eps => eps
  | .error _ => []

/-! # Theorems -/

/-! ## Helper lemmas about the apply driver -/

theorem runList_phase_eq (p : Phase) (step : Option Resource → StepResult) :
    ∀ l, ∀ e ∈ (runList p step l).1, e.phase = p := by
  intro l
  induction l with
  | nil => intro e he; simp [runList] at he
  | cons r rest ih =>
    intro e he
    simp only [runList] at he
    cases hstep : step r with
    | panicked => rw [hstep] at he; simp at he
    | callMade c res =>
      cases res with
      | some e0 =>
        rw [hstep] at he
        simp at he
        rw [he]
      | none =>
        rw [hstep] at he
        simp at he
        rcases he with h | h
        · rw [h]
        · exact ih e h

theorem mem_andThen {x : TraceEntry} {a : List TraceEntry × Outcome}
    {b : Unit → List TraceEntry × Outcome} (h : x ∈ (andThen a b).1) :
    x ∈ a.1 ∨ x ∈ (b ()).1 := by
  rcases a with ⟨t, o⟩
  cases o with
  | ok =>
    simp only [andThen] at h
    simpa using List.mem_append.mp h
  | failed e => exact Or.inl h
  | panicked => exact Or.inl h

theorem pairwise_of_all {α : Type} (P : α → Prop)
    (R : α → α → Prop) (l : List α) (h : ∀ x ∈ l, P x)
    (hR : ∀ x y, P x → P y → R x y) : l.Pairwise R := by
  induction l with
  | nil => exact .nil
  | cons a t ih =>
    refine .cons (fun y hy => hR a y (h a (by simp)) (h y (by simp [hy]))) ?_
    exact ih (fun x hx => h x (by simp [hx]))

theorem andThen_pairwise (R : TraceEntry → TraceEntry → Prop)
    (a : List TraceEntry × Outcome) (b : Unit → List TraceEntry × Outcome)
    (ha : a.1.Pairwise R) (hb : (b ()).1.Pairwise R)
    (hab : ∀ x ∈ a.1, ∀ y ∈ (b ()).1, R x y) :
    (andThen a b).1.Pairwise R := by
  rcases a with ⟨t, o⟩
  cases o with
  | ok =>
    simp only [andThen]
    exact List.pairwise_append.mpr ⟨ha, hb, hab⟩
  | failed e => exact ha
  | panicked => exact ha

theorem runList_TraceOk (p : Phase) (step : Option Resource → StepResult) :
    ∀ l, TraceOk (runList p step l) := by
  intro l
  induction l with
  | nil => exact Or.inl (by intro x hx; simp [runList] at hx)
  | cons r rest ih =>
    simp only [runList]
    cases hstep : step r with
    | panicked => exact Or.inl (by intro x hx; simp at hx)
    | callMade c res =>
      cases res with
      | some e0 =>
        refine Or.inr ⟨[], ⟨p, c, some e0⟩, e0, by simp, rfl, rfl, by simp⟩
      | none =>
        rcases ih with hall | ⟨t0, last, e0, hsplit, hlast, hout, hnone⟩
        · refine Or.inl ?_
          intro x hx
          simp at hx
          rcases hx with h | h
          · rw [h]
          · exact hall x h
        · refine Or.inr ⟨⟨p, c, none⟩ :: t0, last, e0, by simp [hsplit], hlast, hout, ?_⟩
          intro x hx
          simp at hx
          rcases hx with h | h
          · rw [h]
          · exact hnone x h

theorem andThen_TraceOk (a : List TraceEntry × Outcome)
    (b : Unit → List TraceEntry × Outcome)
    (ha : TraceOk a) (hb : TraceOk (b ())) : TraceOk (andThen a b) := by
  rcases a with ⟨t, o⟩
  cases o with
  | ok =>
    have hat : ∀ x ∈ t, x.result = none := by
      rcases ha with h | ⟨t0, last, e0, hsplit, hlast, hout, hnone⟩
      · exact h
      · exact absurd hout (by simp)
    simp only [andThen]
    rcases hb with h | ⟨t0, last, e0, hsplit, hlast, hout, hnone⟩
    · refine Or.inl ?_
      intro x hx
      rcases List.mem_append.mp hx with hx | hx
      · exact hat x hx
      · exact h x hx
    · refine Or.inr ⟨t ++ t0, last, e0, by simp [hsplit], hlast, hout, ?_⟩
      intro x hx
      rcases List.mem_append.mp hx with hx | hx
      · exact hat x hx
      · exact hnone x hx
  | failed e => exact ha
  | panicked => exact ha

theorem applyTrace_TraceOk (cl : ClientModel) (dryRun : Bool)
    (changes : Changes) : TraceOk (applyTrace cl dryRun changes) := by
  unfold applyTrace
  cases dryRun with
  | true => exact Or.inl (by intro x hx; simp at hx)
  | false =>
    simp only [Bool.false_eq_true, if_false]
    exact andThen_TraceOk _ _ (runList_TraceOk _ _ _)
      (andThen_TraceOk _ _ (runList_TraceOk _ _ _)
        (andThen_TraceOk _ _ (runList_TraceOk _ _ _) (runList_TraceOk _ _ _)))

theorem split_last_aux :
    ∀ (pre t0 : List TraceEntry) (last entry : TraceEntry)
      (suf : List TraceEntry) (e : String),
      t0 ++ [last] = pre ++ entry :: suf →
      (∀ x ∈ t0, x.result = none) → entry.result = some e →
      suf = [] ∧ last = entry := by
  intro pre
  induction pre with
  | nil =>
    intro t0 last entry suf e heq hnone hfail
    cases t0 with
    | nil =>
      simp only [List.nil_append] at heq
      injection heq with h1 h2
      exact ⟨h2.symm, h1⟩
    | cons x t0x =>
      simp only [List.cons_append, List.nil_append] at heq
      injection heq with h1 h2
      exfalso
      have hx : x.result = none := hnone x (by simp)
      rw [h1, hfail] at hx
      exact Option.noConfusion hx
  | cons p pre2 ih =>
    intro t0 last entry suf e heq hnone hfail
    cases t0 with
    | nil =>
      simp only [List.nil_append, List.cons_append] at heq
      injection heq with h1 h2
      exact absurd h2.symm (by simp)
    | cons x t0x =>
      simp only [List.cons_append] at heq
      injection heq with h1 h2
      exact ih t0x last entry suf e h2 (fun y hy => hnone y (by simp [hy])) hfail

/-! ## Claim C1 -/

/-- Claim C1 (code bug): the claim states that mergeChanges returns
exactly one aggregate per distinct DNS name.  The source allocates
`values := make([]*common.Resource, len(m))` — a slice that already
holds len(m) nil pointers — and appends the aggregates after them, so
merging two Create records of the one name "x.example.com" yields a
two-element list whose first element is nil, not the single aggregate
the claim (and the spec) demand.  The aggregate itself does carry the
concatenated targets, confirming that grouping was the intent. -/
theorem C1_mergeChanges_nil_entries :
    mergeChanges
        [{ DNSName := "x.example.com", RecordType := "A",
           Targets := ["1.1.1.1"], RecordTTL := 0, Labels := [] },
         { DNSName := "x.example.com", RecordType := "A",
           Targets := ["2.2.2.2"], RecordTTL := 0, Labels := [] }]
      = [none,
         some { Domain := "x.example.com",
                Records :=
                  [{ Address := "1.1.1.1", RType := "A", Class := "IN", TTL := 0 },
                   { Address := "2.2.2.2", RType := "A", Class := "IN", TTL := 0 }] }] := by
  rfl

/-! ## Claim C2 -/

/-- Claim C2: with dry-run unset, ApplyChanges issues its provider
write calls in the fixed class order Creates, Deletes, UpdateNew,
UpdateOld: along the recorded call trace the phase index never
decreases, so in particular every create call precedes every delete
call. -/
theorem C2_apply_order (cl : ClientModel) (changes : Changes) :
    ((applyTrace cl false changes).1).Pairwise
      (fun x y => x.phase.idx ≤ y.phase.idx) := by
  have hA := runList_phase_eq Phase.create (doCreate cl) (mergeChanges changes.Create)
  have hB := runList_phase_eq Phase.delete (doDelete cl) (mergeChanges changes.Delete)
  have hC := runList_phase_eq Phase.updateNew (doUpdate cl) (mergeChanges changes.UpdateNew)
  have hD := runList_phase_eq Phase.updateOld (doUpdate cl) (mergeChanges changes.UpdateOld)
  unfold applyTrace
  simp only [Bool.false_eq_true, if_false]
  apply andThen_pairwise
  · exact pairwise_of_all (fun x => x.phase = Phase.create) _ _ hA
      (fun x y hx hy => by rw [hx, hy])
  · apply andThen_pairwise
    · exact pairwise_of_all (fun x => x.phase = Phase.delete) _ _ hB
        (fun x y hx hy => by rw [hx, hy])
    · apply andThen_pairwise
      · exact pairwise_of_all (fun x => x.phase = Phase.updateNew) _ _ hC
          (fun x y hx hy => by rw [hx, hy])
      · exact pairwise_of_all (fun x => x.phase = Phase.updateOld) _ _ hD
          (fun x y hx hy => by rw [hx, hy])
      · intro x hx y hy
        rw [hC x hx, hD y hy]
        simp [Phase.idx]
    · intro x hx y hy
      rw [hB x hx]
      rcases mem_andThen hy with h | h
      · rw [hC y h]; simp [Phase.idx]
      · rw [hD y h]; simp [Phase.idx]
  · intro x hx y hy
    rw [hA x hx]
    rcases mem_andThen hy with h | h
    · rw [hB y h]; simp [Phase.idx]
    · rcases mem_andThen h with h2 | h2
      · rw [hC y h2]; simp [Phase.idx]
      · rw [hD y h2]; simp [Phase.idx]

/-! ## Claim C3 -/

/-- Claim C3: if some provider write call issued by ApplyChanges
fails, the failing call is the last one of the whole trace — no
further write call of any class is issued, in particular no delete or
update after a failing create — and the run returns exactly that
error. -/
theorem C3_short_circuit (cl : ClientModel) (dryRun : Bool)
    (changes : Changes) (pre : List TraceEntry) (entry : TraceEntry)
    (suf : List TraceEntry) (e : String)
    (hsplit : (applyTrace cl dryRun changes).1 = pre ++ entry :: suf)
    (hfail : entry.result = some e) :
    suf = [] ∧ (applyTrace cl dryRun changes).2 = Outcome.failed e := by
  rcases applyTrace_TraceOk cl dryRun changes with hall |
    ⟨t0, last, e0, ht, hlast, hout, hnone⟩
  · exfalso
    have : entry ∈ (applyTrace cl dryRun changes).1 := by
      rw [hsplit]; simp
    have := hall entry this
    rw [hfail] at this
    exact Option.noConfusion this
  · have heq : t0 ++ [last] = pre ++ entry :: suf := by rw [← ht, hsplit]
    obtain ⟨hsuf, hle⟩ := split_last_aux pre t0 last entry suf e heq hnone hfail
    refine ⟨hsuf, ?_⟩
    rw [hout]
    have : some e0 = some e := by rw [← hlast, hle, hfail]
    rw [Option.some_inj.mp this]

/-- Witness for C3 at a concrete input: a client that fails every
create call, and a batch holding one Create and one Delete for
different names.  The trace holds exactly the one failed create call
(on the nil entry the merge bug put first) and the outcome is its
error: no delete call was issued. -/
theorem C3_short_circuit_witness :
    ([] : List TraceEntry) = [] ∧
      (applyTrace
          { AddRecord := fun _ => some "boom",
            UpdateRecord := fun _ => none,
            DeleteRecord := fun _ => none }
          false
          { Create := [{ DNSName := "a.example.com", RecordType := "A",
                         Targets := ["1.1.1.1"], RecordTTL := 0, Labels := [] }],
            UpdateOld := [], UpdateNew := [],
            Delete := [{ DNSName := "b.example.com", RecordType := "A",
                         Targets := ["2.2.2.2"], RecordTTL := 0, Labels := [] }] }).2
        = Outcome.failed "boom" :=
  C3_short_circuit
    { AddRecord := fun _ => some "boom",
      UpdateRecord := fun _ => none,
      DeleteRecord := fun _ => none }
    false
    { Create := [{ DNSName := "a.example.com", RecordType := "A",
                   Targets := ["1.1.1.1"], RecordTTL := 0, Labels := [] }],
      UpdateOld := [], UpdateNew := [],
      Delete := [{ DNSName := "b.example.com", RecordType := "A",
                   Targets := ["2.2.2.2"], RecordTTL := 0, Labels := [] }] }
    []
    ⟨Phase.create, WriteCall.create none, some "boom"⟩
    [] "boom" (by rfl) (by rfl)

/-! ## Claim C4 -/

/-- Claim C4: with the dry-run flag set ApplyChanges issues no
provider write call and returns nil; and on every execution — dry-run
or not, success, failure or panic — the OnApplyChanges hook fires
exactly once, with the full original four-class batch, after all
client calls. -/
theorem C4_dry_run_and_hook (cl : ClientModel) (dryRun : Bool)
    (changes : Changes) :
    applyTrace cl true changes = ([], Outcome.ok)
      ∧ (ApplyChanges cl dryRun changes).events.countP ApplyEvent.isHook = 1
      ∧ (ApplyChanges cl dryRun changes).events.getLast?
          = some (ApplyEvent.hook changes) := by
  refine ⟨rfl, ?_, ?_⟩
  · show (List.map ApplyEvent.call (applyTrace cl dryRun changes).1
        ++ [ApplyEvent.hook changes]).countP ApplyEvent.isHook = 1
    rw [List.countP_append, List.countP_map]
    simp [ApplyEvent.isHook, Function.comp]
  · show (List.map ApplyEvent.call (applyTrace cl dryRun changes).1
        ++ [ApplyEvent.hook changes]).getLast? = some (ApplyEvent.hook changes)
    exact List.getLast?_concat _

/-! ## Claim C10 -/

/-- Claim C10: Config.String renders the configuration with a
non-empty DynPassword and a non-empty InfobloxWapiPassword each
replaced by the mask, while every other field — including the
ShamanToken credential — appears verbatim; the masking happens on a
copy (the Go `temp := *cfg`), the receiver is only read, which the
embedding reflects by masking being a pure function of the value. -/
theorem C10_config_string_masks (cfg : Config) :
    configString cfg
      = formatConfig
          { cfg with
            DynPassword :=
              if cfg.DynPassword = "" then cfg.DynPassword else passwordMask,
            InfobloxWapiPassword :=
              if cfg.InfobloxWapiPassword = "" then cfg.InfobloxWapiPassword
              else passwordMask }
      ∧ (maskPasswords cfg).ShamanToken = cfg.ShamanToken := by
  have hd : (if cfg.DynPassword ≠ "" then passwordMask else cfg.DynPassword)
      = (if cfg.DynPassword = "" then cfg.DynPassword else passwordMask) := by
    by_cases h : cfg.DynPassword = "" <;> simp [h]
  have hi : (if cfg.InfobloxWapiPassword ≠ "" then passwordMask
        else cfg.InfobloxWapiPassword)
      = (if cfg.InfobloxWapiPassword = "" then cfg.InfobloxWapiPassword
        else passwordMask) := by
    by_cases h : cfg.InfobloxWapiPassword = "" <;> simp [h]
  constructor
  · unfold configString maskPasswords
    rw [hd, hi]
  · rfl

/-! ## Claim C5 -/

/-- Claim C5 (counterexample): an ingress carrying both the hostname
annotation "a.example.com" and the native rule host "b.example.com",
with the combine flag unset and no template, yields records for BOTH
names: the native rule host is not suppressed, so annotation
precedence as claimed does not hold. -/
theorem C5_counterexample :
    ingressEndpoints { combineFQDNAnnotation := false, fqdnTemplate := none }
        [{ Namespace := "default", Name := "web",
           Annotations := [(hostnameAnnotationKey, "a.example.com")],
           SpecRules := [{ Host := "b.example.com" }], SpecTLS := [],
           StatusLoadBalancerIngress := [{ IP := "1.2.3.4", Hostname := "" }] }]
      = Except.ok
          [{ DNSName := "b.example.com", RecordType := "A",
             Targets := ["1.2.3.4"], RecordTTL := 0,
             Labels := [(ResourceLabelKey, "ingress/default/web")] },
           { DNSName := "a.example.com", RecordType := "A",
             Targets := ["1.2.3.4"], RecordTTL := 0,
             Labels := [(ResourceLabelKey, "ingress/default/web")] }] := by
  rfl

/-- Every target is classified as exactly one of A and CNAME. -/
theorem suitableType_cases (t : String) :
    suitableType t = RecordTypeA ∨ suitableType t = RecordTypeCNAME := by
  unfold suitableType
  split
  · exact Or.inl rfl
  · exact Or.inr rfl

theorem recordTypeA_ne_CNAME : RecordTypeA ≠ RecordTypeCNAME := by decide

/-- When the target list is non-empty, the per-hostname synthesis
emits at least one record carrying exactly that hostname. -/
theorem endpointsForHostname_mem (h : String) (targets : List String)
    (ttl : Int) (ht : targets ≠ []) :
    ∃ ep ∈ endpointsForHostname h targets ttl, ep.DNSName = h := by
  unfold endpointsForHostname
  cases targets with
  | nil => exact absurd rfl ht
  | cons t ts =>
    rcases suitableType_cases t with hA | hC
    · have hmem : t ∈ (t :: ts).filter (fun x => suitableType x == RecordTypeA) :=
        List.mem_filter.mpr ⟨by simp, by simp [hA]⟩
      have hne : ((t :: ts).filter (fun x => suitableType x == RecordTypeA)).isEmpty = false := by
        cases hcase : (t :: ts).filter (fun x => suitableType x == RecordTypeA) with
        | nil => rw [hcase] at hmem; simp at hmem
        | cons a l => simp
      refine ⟨{ DNSName := h, RecordType := RecordTypeA,
                Targets := (t :: ts).filter (fun x => suitableType x == RecordTypeA),
                RecordTTL := ttl, Labels := [] }, ?_, rfl⟩
      simp [hne]
    · have hmem : t ∈ (t :: ts).filter (fun x => suitableType x == RecordTypeCNAME) :=
        List.mem_filter.mpr ⟨by simp, by simp [hC]⟩
      have hne : ((t :: ts).filter (fun x => suitableType x == RecordTypeCNAME)).isEmpty = false := by
        cases hcase : (t :: ts).filter (fun x => suitableType x == RecordTypeCNAME) with
        | nil => rw [hcase] at hmem; simp at hmem
        | cons a l => simp
      refine ⟨{ DNSName := h, RecordType := RecordTypeCNAME,
                Targets := (t :: ts).filter (fun x => suitableType x == RecordTypeCNAME),
                RecordTTL := ttl, Labels := [] }, ?_, rfl⟩
      simp [hne]

/-- Claim C5 (amended): with at least one discovered target, the
ingress synthesis yields records for every non-empty native rule host
AND for every annotation hostname — the annotation hostnames are
appended after the native ones rather than replacing them. -/
theorem C5_both_hosts (ing : Ingress)
    (htargets : ingressTargets ing ≠ []) :
    (∀ rule ∈ ing.SpecRules, rule.Host ≠ "" →
        ∃ ep ∈ endpointsFromIngress ing, ep.DNSName = rule.Host)
      ∧ (∀ hostname ∈ getHostnamesFromAnnotations ing.Annotations,
        ∃ ep ∈ endpointsFromIngress ing, ep.DNSName = hostname) := by
  constructor
  · intro rule hrule hhost
    obtain ⟨ep, hmem, hname⟩ :=
      endpointsForHostname_mem rule.Host (ingressTargets ing)
        (getTTLFromAnnotations ing.Annotations) htargets
    refine ⟨ep, ?_, hname⟩
    unfold endpointsFromIngress
    apply List.mem_append_left
    apply List.mem_append_left
    apply List.mem_flatMap.mpr
    refine ⟨rule, hrule, ?_⟩
    rw [if_neg hhost]
    exact hmem
  · intro hostname hann
    obtain ⟨ep, hmem, hname⟩ :=
      endpointsForHostname_mem hostname (ingressTargets ing)
        (getTTLFromAnnotations ing.Annotations) htargets
    refine ⟨ep, ?_, hname⟩
    unfold endpointsFromIngress
    apply List.mem_append_right
    apply List.mem_flatMap.mpr
    exact ⟨hostname, hann, hmem⟩

/-- Witness for the amended C5 at the counterexample's ingress: the
hypothesis holds and records exist for both the native rule host and
the annotation hostname. -/
theorem C5_both_hosts_witness :
    (ingressTargets
        { Namespace := "default", Name := "web",
          Annotations := [(hostnameAnnotationKey, "a.example.com")],
          SpecRules := [{ Host := "b.example.com" }], SpecTLS := [],
          StatusLoadBalancerIngress := [{ IP := "1.2.3.4", Hostname := "" }] }
      ≠ [])
    ∧ (∃ ep ∈ endpointsFromIngress
          { Namespace := "default", Name := "web",
            Annotations := [(hostnameAnnotationKey, "a.example.com")],
            SpecRules := [{ Host := "b.example.com" }], SpecTLS := [],
            StatusLoadBalancerIngress := [{ IP := "1.2.3.4", Hostname := "" }] },
        ep.DNSName = "b.example.com")
    ∧ (∃ ep ∈ endpointsFromIngress
          { Namespace := "default", Name := "web",
            Annotations := [(hostnameAnnotationKey, "a.example.com")],
            SpecRules := [{ Host := "b.example.com" }], SpecTLS := [],
            StatusLoadBalancerIngress := [{ IP := "1.2.3.4", Hostname := "" }] },
        ep.DNSName = "a.example.com") := by
  refine ⟨by decide, ?_, ?_⟩
  · have h := (C5_both_hosts
      { Namespace := "default", Name := "web",
        Annotations := [(hostnameAnnotationKey, "a.example.com")],
        SpecRules := [{ Host := "b.example.com" }], SpecTLS := [],
        StatusLoadBalancerIngress := [{ IP := "1.2.3.4", Hostname := "" }] }
      (by decide)).1 { Host := "b.example.com" } (by simp) (by decide)
    exact h
  · have h := (C5_both_hosts
      { Namespace := "default", Name := "web",
        Annotations := [(hostnameAnnotationKey, "a.example.com")],
        SpecRules := [{ Host := "b.example.com" }], SpecTLS := [],
        StatusLoadBalancerIngress := [{ IP := "1.2.3.4", Hostname := "" }] }
      (by decide)).2 "a.example.com" (by decide)
    exact h

/-! ## Helper lemmas about generateEndpoints -/

theorem string_length_pos_of_ne {s : String} (h : s ≠ "") : 0 < s.length := by
  cases s with
  | mk data =>
    cases data with
    | nil => exact absurd rfl h
    | cons c l => simp [String.length]

theorem trimSuffixDot_length_ge (s : String) :
    s.length - 1 ≤ (trimSuffixDot s).length := by
  unfold trimSuffixDot
  split
  · simp only [String.length_mk, List.length_dropLast]
    exact Nat.le_refl _
  · omega

theorem nodePortProtocol_ne (port : ServicePort) : nodePortProtocol port ≠ "" := by
  unfold nodePortProtocol
  split
  · decide
  · assumption

theorem nodePortRecordName_length (port : ServicePort) (h : String) :
    (nodePortRecordName port h).length
      = 4 + ((nodePortName port).length + (nodePortProtocol port).length
          + h.length) := by
  unfold nodePortRecordName
  rw [String.length_append, String.length_append, String.length_append,
    String.length_append, String.length_append]
  have la : ("_" : String).length = 1 := rfl
  have lb : ("._" : String).length = 2 := rfl
  have lc : ("." : String).length = 1 := rfl
  rw [la, lb, lc]
  omega

/-- The SRV record name is strictly longer than the hostname, even
after trailing-dot trimming, so it never collides with the hostname's
own A/CNAME records. -/
theorem nodePortRecordName_trim_ne (port : ServicePort) (h : String) :
    trimSuffixDot (nodePortRecordName port h) ≠ h := by
  intro he
  have hlen := congrArg String.length he
  have h1 := nodePortRecordName_length port h
  have h2 := trimSuffixDot_length_ge (nodePortRecordName port h)
  have h3 : 0 < (nodePortProtocol port).length :=
    string_length_pos_of_ne (nodePortProtocol_ne port)
  omega

theorem extractNodePortEndpoints_name_ne (svc : Service)
    (nodeTargets : List String) (h : String) (ttl : Int) :
    ∀ ep ∈ extractNodePortEndpoints svc nodeTargets h ttl, ep.DNSName ≠ h := by
  intro ep hep
  unfold extractNodePortEndpoints at hep
  rw [List.mem_flatMap] at hep
  obtain ⟨port, _, hin⟩ := hep
  by_cases hp : 0 < port.NodePort
  · rw [if_pos hp] at hin
    have hname : ep.DNSName = trimSuffixDot (nodePortRecordName port h) := by
      by_cases ht : ttlIsConfigured ttl = true
      · rw [if_pos ht] at hin
        simp at hin
        rw [hin]
        rfl
      · rw [if_neg ht] at hin
        simp at hin
        rw [hin]
        rfl
    rw [hname]
    exact nodePortRecordName_trim_ne port h
  · rw [if_neg hp] at hin
    simp at hin

theorem getTTL_nonneg (ann : List (String × String)) :
    0 ≤ getTTLFromAnnotations ann := by
  unfold getTTLFromAnnotations
  cases hl : lookupAnnotation ann ttlAnnotationKey with
  | none => exact le_refl 0
  | some v =>
    show (0 : Int) ≤ match parseNat v with
      | some n => (n : Int)
      | none => 0
    cases parseNat v with
    | none => exact le_refl 0
    | some n => exact Int.natCast_nonneg n

/-- The target accumulators are disjoint: a target list of at most one
element cannot populate both. -/
theorem classTargets_not_both (cfg : ServiceConfig) (svc : Service)
    (nodeTargets : List String)
    (hlen : (discoveredTargets cfg svc nodeTargets).length ≤ 1) :
    classATargets cfg svc nodeTargets = []
      ∨ classCNAMETargets cfg svc nodeTargets = [] := by
  by_cases hA : classATargets cfg svc nodeTargets = []
  · exact Or.inl hA
  · right
    obtain ⟨a, ha⟩ := List.exists_mem_of_ne_nil _ hA
    have haf := List.mem_filter.mp ha
    by_contra hC
    obtain ⟨c, hc⟩ := List.exists_mem_of_ne_nil _ hC
    have hcf := List.mem_filter.mp hc
    have ha2 : a ∈ discoveredTargets cfg svc nodeTargets := haf.1
    have hc2 : c ∈ discoveredTargets cfg svc nodeTargets := hcf.1
    have hac : a = c := by
      rcases hll : discoveredTargets cfg svc nodeTargets with _ | ⟨x, _ | ⟨y, l⟩⟩
      · rw [hll] at ha2
        simp at ha2
      · rw [hll] at ha2 hc2
        simp at ha2 hc2
        rw [ha2, hc2]
      · rw [hll] at hlen
        simp at hlen
    have h1 : suitableType a = RecordTypeA := by
      have := haf.2
      simpa using this
    have h2 : suitableType c = RecordTypeCNAME := by
      have := hcf.2
      simpa using this
    rw [hac, h2] at h1
    exact recordTypeA_ne_CNAME h1.symm

/-- In the mixed-targets situation the headless/SRV extras never carry
the hostname itself. -/
theorem extraEndpoints_filter_name (cfg : ServiceConfig)
    (podsFor : Service → Except KErr (List Pod)) (svc : Service)
    (h : String) (ttl : Int) (nodeTargets : List String)
    (hA : classATargets cfg svc nodeTargets ≠ [])
    (hC : classCNAMETargets cfg svc nodeTargets ≠ []) :
    (extraEndpoints cfg podsFor svc h ttl nodeTargets).filter
        (fun ep => ep.DNSName == h) = [] := by
  unfold extraEndpoints
  cases htype : svc.SpecType with
  | LoadBalancer => rfl
  | ExternalName => rfl
  | ClusterIP =>
    exfalso
    have hdisc : discoveredTargets cfg svc nodeTargets
        = if cfg.publishInternal then extractServiceIps svc else [] := by
      unfold discoveredTargets
      rw [htype]
    have hlen : (discoveredTargets cfg svc nodeTargets).length ≤ 1 := by
      rw [hdisc]
      by_cases hpi : cfg.publishInternal = true
      · rw [if_pos hpi]
        unfold extractServiceIps
        by_cases hcl : svc.SpecClusterIP = "None"
        · rw [if_pos hcl]
          simp
        · rw [if_neg hcl]
          simp
      · rw [if_neg hpi]
        simp
    rcases classTargets_not_both cfg svc nodeTargets hlen with hh | hh
    · exact hA hh
    · exact hC hh
  | NodePort =>
    apply List.filter_eq_nil_iff.mpr
    intro ep hep
    have := extractNodePortEndpoints_name_ne svc nodeTargets h ttl ep hep
    simp [this]

/-! ## Claim C6 -/

/-- Claim C6: when the discovered target list of a hostname mixes
IP-literal and non-IP targets, synthesis emits exactly two records for
that name — one A record holding exactly the IP-literal targets and
one CNAME record holding exactly the rest — and never a single mixed
record; each accumulator would be dropped if its target list were
empty. -/
theorem C6_type_split (cfg : ServiceConfig)
    (podsFor : Service → Except KErr (List Pod)) (svc : Service)
    (hostname : String) (nodeTargets : List String)
    (hA : classATargets cfg svc nodeTargets ≠ [])
    (hC : classCNAMETargets cfg svc nodeTargets ≠ []) :
    (generateEndpoints cfg podsFor svc hostname nodeTargets).filter
        (fun ep => ep.DNSName == trimSuffixDot hostname)
      = [{ DNSName := trimSuffixDot hostname, RecordType := RecordTypeA,
           Targets := classATargets cfg svc nodeTargets,
           RecordTTL := getTTLFromAnnotations svc.Annotations, Labels := [] },
         { DNSName := trimSuffixDot hostname, RecordType := RecordTypeCNAME,
           Targets := classCNAMETargets cfg svc nodeTargets,
           RecordTTL := getTTLFromAnnotations svc.Annotations,
           Labels := [] }] := by
  have hAe : (classATargets cfg svc nodeTargets).isEmpty = false := by
    cases hcase : classATargets cfg svc nodeTargets with
    | nil => exact absurd hcase hA
    | cons a l => rfl
  have hCe : (classCNAMETargets cfg svc nodeTargets).isEmpty = false := by
    cases hcase : classCNAMETargets cfg svc nodeTargets with
    | nil => exact absurd hcase hC
    | cons a l => rfl
  have hextra := extraEndpoints_filter_name cfg podsFor svc
    (trimSuffixDot hostname) (getTTLFromAnnotations svc.Annotations)
    nodeTargets hA hC
  unfold generateEndpoints
  rw [List.filter_append, List.filter_append, hextra, hAe, hCe]
  simp

/-- Witness for C6: a load-balanced service whose status carries the
IP 1.1.1.1 and the hostname lb.example.org yields exactly the A and
the CNAME record for svc.example.com. -/
theorem C6_type_split_witness :
    (generateEndpoints
        { annotationFilter := none, compatibility := "",
          combineFQDNAnnotation := false, publishInternal := false,
          publishHostIP := false, fqdnTemplate := none,
          serviceTypeFilter := [] }
        (fun _ => Except.ok [])
        { Namespace := "default", Name := "web", Annotations := [],
          SpecType := ServiceType.LoadBalancer, SpecClusterIP := "",
          SpecPorts := [],
          StatusLoadBalancerIngress :=
            [{ IP := "1.1.1.1", Hostname := "lb.example.org" }] }
        "svc.example.com" []).filter
      (fun ep => ep.DNSName == trimSuffixDot "svc.example.com")
      = [{ DNSName := "svc.example.com", RecordType := RecordTypeA,
           Targets := ["1.1.1.1"], RecordTTL := 0, Labels := [] },
         { DNSName := "svc.example.com", RecordType := RecordTypeCNAME,
           Targets := ["lb.example.org"], RecordTTL := 0, Labels := [] }] := by
  have h := C6_type_split
    { annotationFilter := none, compatibility := "",
      combineFQDNAnnotation := false, publishInternal := false,
      publishHostIP := false, fqdnTemplate := none, serviceTypeFilter := [] }
    (fun _ => Except.ok [])
    { Namespace := "default", Name := "web", Annotations := [],
      SpecType := ServiceType.LoadBalancer, SpecClusterIP := "",
      SpecPorts := [],
      StatusLoadBalancerIngress :=
        [{ IP := "1.1.1.1", Hostname := "lb.example.org" }] }
    "svc.example.com" [] (by decide) (by decide)
  exact h.trans (by rfl)

/-! ## Claim C9 -/

/-- Claim C9 (counterexample): a node-routed service with the declared
port \x7bname "http", protocol TCP, nodePort 0\x7d synthesises NO SRV record
for that port — only ports with a positive (allocated) node port do —
while the claim as stated demands one SRV record for each declared
port. -/
theorem C9_counterexample :
    generateEndpoints
        { annotationFilter := none, compatibility := "",
          combineFQDNAnnotation := false, publishInternal := false,
          publishHostIP := false, fqdnTemplate := none,
          serviceTypeFilter := [] }
        (fun _ => Except.ok [])
        { Namespace := "default", Name := "web", Annotations := [],
          SpecType := ServiceType.NodePort, SpecClusterIP := "",
          SpecPorts := [{ Name := "http", Protocol := "TCP", NodePort := 0 }],
          StatusLoadBalancerIngress := [] }
        "svc.example.com" ["1.1.1.1"]
      = [{ DNSName := "svc.example.com", RecordType := RecordTypeA,
           Targets := ["1.1.1.1"], RecordTTL := 0, Labels := [] }] := by
  rfl

theorem extractNodePortEndpoints_eq (svc : Service)
    (nodeTargets : List String) (hostname : String) (ttl : Int)
    (h0 : 0 ≤ ttl) :
    extractNodePortEndpoints svc nodeTargets hostname ttl
      = svc.SpecPorts.flatMap (fun port =>
          if 0 < port.NodePort then
            [{ DNSName := trimSuffixDot (nodePortRecordName port hostname),
               RecordType := RecordTypeSRV,
               Targets := [nodePortTarget port hostname],
               RecordTTL := ttl, Labels := [] }]
          else []) := by
  unfold extractNodePortEndpoints
  congr 1
  funext port
  by_cases hp : 0 < port.NodePort
  · rw [if_pos hp, if_pos hp]
    by_cases ht : ttlIsConfigured ttl = true
    · rw [if_pos ht]
      rfl
    · rw [if_neg ht]
      have hz : ttl = 0 := by
        unfold ttlIsConfigured at ht
        simp at ht
        omega
      rw [hz]
      rfl
  · rw [if_neg hp, if_neg hp]

/-- Claim C9 (amended): for a node-routed service, every declared port
WITH A POSITIVE NODE PORT synthesises one SRV record named
`_<port-name-or-number>._<protocol>.h` whose single target is
"0 50 <node-port> h" (priority 0, weight 50, name falling back to the
node-port number, protocol lower-cased falling back to tcp), in
addition to the A record at h carrying the node targets (assumed here
to be IP literals, as node addresses are). -/
theorem C9_nodeport_srv (cfg : ServiceConfig)
    (podsFor : Service → Except KErr (List Pod)) (svc : Service)
    (hostname : String) (nodeTargets : List String)
    (htype : svc.SpecType = ServiceType.NodePort)
    (hdot : hostname.data.getLast? ≠ some '.')
    (hAll : ∀ t ∈ nodeTargets, suitableType t = RecordTypeA)
    (hne : nodeTargets ≠ []) :
    generateEndpoints cfg podsFor svc hostname nodeTargets
      = svc.SpecPorts.flatMap (fun port =>
          if 0 < port.NodePort then
            [{ DNSName := trimSuffixDot (nodePortRecordName port hostname),
               RecordType := RecordTypeSRV,
               Targets := [nodePortTarget port hostname],
               RecordTTL := getTTLFromAnnotations svc.Annotations,
               Labels := [] }]
          else [])
        ++ [{ DNSName := hostname, RecordType := RecordTypeA,
              Targets := nodeTargets,
              RecordTTL := getTTLFromAnnotations svc.Annotations,
              Labels := [] }] := by
  have htrim : trimSuffixDot hostname = hostname := by
    unfold trimSuffixDot
    rw [if_neg hdot]
  have hdisc : discoveredTargets cfg svc nodeTargets = nodeTargets := by
    unfold discoveredTargets
    rw [htype]
  have hCA : classATargets cfg svc nodeTargets = nodeTargets := by
    unfold classATargets
    rw [hdisc]
    apply List.filter_eq_self.mpr
    intro a ha
    simp [hAll a ha]
  have hCC : classCNAMETargets cfg svc nodeTargets = [] := by
    unfold classCNAMETargets
    rw [hdisc]
    apply List.filter_eq_nil_iff.mpr
    intro a ha
    rw [hAll a ha]
    decide
  have hAe : (classATargets cfg svc nodeTargets).isEmpty = false := by
    rw [hCA]
    cases nodeTargets with
    | nil => exact absurd rfl hne
    | cons a l => rfl
  have hextra : extraEndpoints cfg podsFor svc hostname
      (getTTLFromAnnotations svc.Annotations) nodeTargets
      = extractNodePortEndpoints svc nodeTargets hostname
          (getTTLFromAnnotations svc.Annotations) := by
    unfold extraEndpoints
    rw [htype]
  unfold generateEndpoints
  rw [htrim, hextra,
    extractNodePortEndpoints_eq svc nodeTargets hostname _
      (getTTL_nonneg svc.Annotations)]
  rw [hAe, hCC, hCA]
  simp

/-- Witness for the amended C9 at the spec's own example: port 30080
named "http" over TCP, hostname svc.example.com, node IPs 1.1.1.1 and
2.2.2.2. -/
theorem C9_nodeport_srv_witness :
    generateEndpoints
        { annotationFilter := none, compatibility := "",
          combineFQDNAnnotation := false, publishInternal := false,
          publishHostIP := false, fqdnTemplate := none,
          serviceTypeFilter := [] }
        (fun _ => Except.ok [])
        { Namespace := "default", Name := "web", Annotations := [],
          SpecType := ServiceType.NodePort, SpecClusterIP := "",
          SpecPorts :=
            [{ Name := "http", Protocol := "TCP", NodePort := 30080 }],
          StatusLoadBalancerIngress := [] }
        "svc.example.com" ["1.1.1.1", "2.2.2.2"]
      = [{ DNSName := "_http._tcp.svc.example.com",
           RecordType := RecordTypeSRV,
           Targets := ["0 50 30080 svc.example.com"], RecordTTL := 0,
           Labels := [] },
         { DNSName := "svc.example.com", RecordType := RecordTypeA,
           Targets := ["1.1.1.1", "2.2.2.2"], RecordTTL := 0,
           Labels := [] }] := by
  have h := C9_nodeport_srv
    { annotationFilter := none, compatibility := "",
      combineFQDNAnnotation := false, publishInternal := false,
      publishHostIP := false, fqdnTemplate := none, serviceTypeFilter := [] }
    (fun _ => Except.ok [])
    { Namespace := "default", Name := "web", Annotations := [],
      SpecType := ServiceType.NodePort, SpecClusterIP := "",
      SpecPorts := [{ Name := "http", Protocol := "TCP", NodePort := 30080 }],
      StatusLoadBalancerIngress := [] }
    "svc.example.com" ["1.1.1.1", "2.2.2.2"]
    rfl (by decide) (by decide) (by decide)
  exact h.trans (by rfl)

/-! ## Claim C8 -/

/-- Claim C8 (counterexample): a headless service (cluster IP "None")
with a hostname annotation whose backing-pod listing FAILS with an
ordinary (non-forbidden) error: the adapter run succeeds with zero
records and surfaces no error — the pod-listing failure is logged and
swallowed by extractHeadlessEndpoints, it does not abort the run as
the claim demands. -/
theorem C8_counterexample :
    serviceEndpoints
        { annotationFilter := none, compatibility := "",
          combineFQDNAnnotation := false, publishInternal := false,
          publishHostIP := false, fqdnTemplate := none,
          serviceTypeFilter := [] }
        (fun _ => [])
        { servicesRes := Except.ok
            [{ Namespace := "default", Name := "db",
               Annotations := [(hostnameAnnotationKey, "db.example.com")],
               SpecType := ServiceType.ClusterIP, SpecClusterIP := "None",
               SpecPorts := [], StatusLoadBalancerIngress := [] }],
          nodesRes := Except.ok [],
          podsFor := fun _ =>
            Except.error { forbidden := false, msg := "pods listing failed" } }
      = Except.ok [] := by
  rfl

theorem extractNodeTargets_forbidden (e : KErr) (hf : e.forbidden = true) :
    extractNodeTargets (Except.error e) = Except.ok [] := by
  simp [extractNodeTargets, hf]

theorem extractNodeTargets_nodes_ok (nodes : List Node) :
    ∃ nt, extractNodeTargets (Except.ok nodes) = Except.ok nt := by
  by_cases hb : (nodeExternalIPs nodes).isEmpty = true
  · exact ⟨nodeInternalIPs nodes, by simp [extractNodeTargets, hb]⟩
  · exact ⟨nodeExternalIPs nodes, by simp [extractNodeTargets, hb]⟩

/-- Without a template, the per-service loop has no failure path: pod
listing errors are swallowed inside extractHeadlessEndpoints. -/
theorem processServices_ok (cfg : ServiceConfig)
    (legacy : Service → List Endpoint)
    (podsFor : Service → Except KErr (List Pod))
    (nodeTargets : List String) (hT : cfg.fqdnTemplate = none) :
    ∀ l, ∃ res, processServices cfg legacy podsFor nodeTargets l
      = Except.ok res := by
  have htS : ∀ svc cur, templateStep cfg podsFor svc nodeTargets cur
      = Except.ok cur := by
    intro svc cur
    unfold templateStep
    rw [hT]
  intro l
  induction l with
  | nil => exact ⟨[], rfl⟩
  | cons svc rest ih =>
    obtain ⟨res, hres⟩ := ih
    cases hp : processServices cfg legacy podsFor nodeTargets (svc :: rest) with
    | ok r => exact ⟨r, rfl⟩
    | error e =>
      exfalso
      unfold processServices at hp
      by_cases hskip : controllerSkip svc.Annotations = true
      · rw [if_pos hskip, hres] at hp
        exact Except.noConfusion hp
      · rw [if_neg hskip] at hp
        dsimp only at hp
        rw [htS] at hp
        dsimp only at hp
        rw [hres] at hp
        dsimp only at hp
        exact Except.noConfusion hp

/-- Claim C8 (amended): a failure to list the services aborts the run
with that error; a non-forbidden failure to list the nodes aborts the
run with that error; a forbidden node-listing failure degrades to an
empty node-target list; but a failure to list a headless service's
backing pods is swallowed (zero records for that service, no error) —
with no template configured the run always returns ok, whatever the
pod listing answers. -/
theorem C8_listing_failures (cfg : ServiceConfig)
    (legacy : Service → List Endpoint) (cluster : Cluster) :
    (∀ e, cluster.servicesRes = Except.error e →
        serviceEndpoints cfg legacy cluster = Except.error e)
      ∧ (∀ svcs e, cluster.servicesRes = Except.ok svcs →
          cluster.nodesRes = Except.error e → e.forbidden = false →
          serviceEndpoints cfg legacy cluster = Except.error e)
      ∧ (∀ svcs, cluster.servicesRes = Except.ok svcs →
          (∀ e, cluster.nodesRes = Except.error e → e.forbidden = true) →
          cfg.fqdnTemplate = none →
          ∃ eps, serviceEndpoints cfg legacy cluster = Except.ok eps) := by
  refine ⟨?_, ?_, ?_⟩
  · intro e he
    simp [serviceEndpoints, he]
  · intro svcs e hs hn hf
    have hx : extractNodeTargets cluster.nodesRes = Except.error e := by
      rw [hn]
      simp [extractNodeTargets, hf]
    simp [serviceEndpoints, hs, hx]
  · intro svcs hs hfb hT
    obtain ⟨nt, hnt⟩ : ∃ nt, extractNodeTargets cluster.nodesRes
        = Except.ok nt := by
      cases hn : cluster.nodesRes with
      | error e => exact ⟨[], by rw [extractNodeTargets_forbidden e (hfb e hn)]⟩
      | ok nodes => exact extractNodeTargets_nodes_ok nodes
    obtain ⟨res, hres⟩ := processServices_ok cfg legacy cluster.podsFor nt hT
      (if cfg.serviceTypeFilter.isEmpty then
        filterByAnnotations cfg.annotationFilter svcs
       else filterByServiceType cfg.serviceTypeFilter
        (filterByAnnotations cfg.annotationFilter svcs))
    refine ⟨res.map (fun ep => { ep with Targets := sortTargets ep.Targets }), ?_⟩
    simp only [serviceEndpoints, hs, hnt, hres]

/-- Witness for the amended C8: the three behaviours at concrete
inputs — a failing service listing propagates, a non-forbidden node
listing failure propagates, and with a forbidden node listing plus a
failing pod listing the run still returns ok. -/
theorem C8_listing_failures_witness :
    serviceEndpoints
        { annotationFilter := none, compatibility := "",
          combineFQDNAnnotation := false, publishInternal := false,
          publishHostIP := false, fqdnTemplate := none,
          serviceTypeFilter := [] }
        (fun _ => [])
        { servicesRes := Except.error { forbidden := false, msg := "tcp reset" },
          nodesRes := Except.ok [],
          podsFor := fun _ => Except.ok [] }
      = Except.error { forbidden := false, msg := "tcp reset" }
    ∧ serviceEndpoints
        { annotationFilter := none, compatibility := "",
          combineFQDNAnnotation := false, publishInternal := false,
          publishHostIP := false, fqdnTemplate := none,
          serviceTypeFilter := [] }
        (fun _ => [])
        { servicesRes := Except.ok [],
          nodesRes := Except.error { forbidden := false, msg := "node timeout" },
          podsFor := fun _ => Except.ok [] }
      = Except.error { forbidden := false, msg := "node timeout" }
    ∧ ∃ eps,
        serviceEndpoints
          { annotationFilter := none, compatibility := "",
            combineFQDNAnnotation := false, publishInternal := false,
            publishHostIP := false, fqdnTemplate := none,
            serviceTypeFilter := [] }
          (fun _ => [])
          { servicesRes := Except.ok
              [{ Namespace := "default", Name := "db",
                 Annotations := [(hostnameAnnotationKey, "db.example.com")],
                 SpecType := ServiceType.ClusterIP, SpecClusterIP := "None",
                 SpecPorts := [], StatusLoadBalancerIngress := [] }],
            nodesRes := Except.error { forbidden := true, msg := "forbidden" },
            podsFor := fun _ =>
              Except.error { forbidden := false, msg := "pods listing failed" } }
          = Except.ok eps := by
  refine ⟨?_, ?_, ?_⟩
  · exact (C8_listing_failures
      { annotationFilter := none, compatibility := "",
        combineFQDNAnnotation := false, publishInternal := false,
        publishHostIP := false, fqdnTemplate := none, serviceTypeFilter := [] }
      (fun _ => [])
      { servicesRes := Except.error { forbidden := false, msg := "tcp reset" },
        nodesRes := Except.ok [],
        podsFor := fun _ => Except.ok [] }).1
      { forbidden := false, msg := "tcp reset" } rfl
  · exact ((C8_listing_failures
      { annotationFilter := none, compatibility := "",
        combineFQDNAnnotation := false, publishInternal := false,
        publishHostIP := false, fqdnTemplate := none, serviceTypeFilter := [] }
      (fun _ => [])
      { servicesRes := Except.ok [],
        nodesRes := Except.error { forbidden := false, msg := "node timeout" },
        podsFor := fun _ => Except.ok [] }).2.1)
      [] { forbidden := false, msg := "node timeout" } rfl rfl rfl
  · exact ((C8_listing_failures
      { annotationFilter := none, compatibility := "",
        combineFQDNAnnotation := false, publishInternal := false,
        publishHostIP := false, fqdnTemplate := none, serviceTypeFilter := [] }
      (fun _ => [])
      { servicesRes := Except.ok
          [{ Namespace := "default", Name := "db",
             Annotations := [(hostnameAnnotationKey, "db.example.com")],
             SpecType := ServiceType.ClusterIP, SpecClusterIP := "None",
             SpecPorts := [], StatusLoadBalancerIngress := [] }],
        nodesRes := Except.error { forbidden := true, msg := "forbidden" },
        podsFor := fun _ =>
          Except.error { forbidden := false, msg := "pods listing failed" } }).2.2)
      [{ Namespace := "default", Name := "db",
         Annotations := [(hostnameAnnotationKey, "db.example.com")],
         SpecType := ServiceType.ClusterIP, SpecClusterIP := "None",
         SpecPorts := [], StatusLoadBalancerIngress := [] }]
      rfl (fun e he => by injection he with h2; rw [← h2]) rfl

/-! ## Claim C7 -/

/-- Claim C7 (counterexample): a template that renders to the empty
string yields the hostname "" (the source splits the rendered string
on commas, and splitting "" gives one empty piece), and a
load-balanced service with a status IP then produces a Record with an
EMPTY DNS name — the adapter does emit it, contradicting the claim
that no Record with an empty name is ever emitted. -/
theorem C7_counterexample :
    serviceEndpoints
        { annotationFilter := none, compatibility := "",
          combineFQDNAnnotation := false, publishInternal := false,
          publishHostIP := false,
          fqdnTemplate := some (fun _ => Except.ok ""),
          serviceTypeFilter := [] }
        (fun _ => [])
        { servicesRes := Except.ok
            [{ Namespace := "default", Name := "web", Annotations := [],
               SpecType := ServiceType.LoadBalancer, SpecClusterIP := "",
               SpecPorts := [],
               StatusLoadBalancerIngress := [{ IP := "1.2.3.4", Hostname := "" }] }],
          nodesRes := Except.ok [], podsFor := fun _ => Except.ok [] }
      = Except.ok
          [{ DNSName := "", RecordType := "A", Targets := ["1.2.3.4"],
             RecordTTL := 0,
             Labels := [(ResourceLabelKey, "service/default/web")] }] := by
  rfl

theorem insertTarget_length (t : String) :
    ∀ l, (insertTarget t l).length = l.length + 1 := by
  intro l
  induction l with
  | nil => rfl
  | cons x xs ih =>
    unfold insertTarget
    split
    · rfl
    · simp only [List.length_cons, ih]

theorem sortTargets_length (ts : List String) :
    (sortTargets ts).length = ts.length := by
  unfold sortTargets
  induction ts with
  | nil => rfl
  | cons x xs ih =>
    rw [List.foldr_cons, insertTarget_length, ih]
    rfl

theorem sortTargets_ne_nil {ts : List String} (h : ts ≠ []) :
    sortTargets ts ≠ [] := by
  intro he
  have hl := sortTargets_length ts
  rw [he] at hl
  cases ts with
  | nil => exact h rfl
  | cons a l => simp at hl

theorem string_ne_empty_of_length_pos {s : String} (h : 0 < s.length) :
    s ≠ "" := by
  intro he
  rw [he] at h
  simp at h

theorem data_ne_nil {s : String} (h : s ≠ "") : s.data ≠ [] := by
  cases s with
  | mk data =>
    intro hd
    subst hd
    exact h rfl

theorem trimSuffixDot_eq_self {s : String}
    (hdot : s.data.getLast? ≠ some '.') : trimSuffixDot s = s := by
  unfold trimSuffixDot
  rw [if_neg hdot]

/-- The per-pod headless subdomain is non-empty (after trimming)
whenever the hostname is non-empty and carries no trailing dot. -/
theorem headlessDomain_trim_ne (v : Pod) (hostname : String)
    (hne : hostname ≠ "") (hdot : hostname.data.getLast? ≠ some '.') :
    trimSuffixDot (headlessDomainOf v hostname) ≠ "" := by
  unfold headlessDomainOf
  split
  · rw [trimSuffixDot_eq_self hdot]
    exact hne
  · have hd : hostname.data ≠ [] := data_ne_nil hne
    have hlast : (v.SpecHostname ++ "." ++ hostname).data.getLast?
        = hostname.data.getLast? := by
      rw [String.data_append, List.getLast?_append]
      obtain ⟨c, hc⟩ := Option.isSome_iff_exists.mp
        (List.getLast?_isSome.mpr hd)
      rw [hc]
      simp
    rw [trimSuffixDot_eq_self (by rw [hlast]; exact hdot)]
    apply string_ne_empty_of_length_pos
    rw [String.length_append, String.length_append]
    have l1 : ("." : String).length = 1 := rfl
    rw [l1]
    omega

/-- The SRV record name survives trimming non-empty. -/
theorem nodePortRecordName_trim_ne_empty (port : ServicePort)
    (hostname : String) :
    trimSuffixDot (nodePortRecordName port hostname) ≠ "" := by
  apply string_ne_empty_of_length_pos
  have h1 := nodePortRecordName_length port hostname
  have h2 := trimSuffixDot_length_ge (nodePortRecordName port hostname)
  omega

theorem extractHeadlessEndpoints_wf (cfg : ServiceConfig)
    (podsFor : Service → Except KErr (List Pod)) (svc : Service)
    (hostname : String) (ttl : Int)
    (hne : hostname ≠ "") (hdot : hostname.data.getLast? ≠ some '.') :
    ∀ ep ∈ extractHeadlessEndpoints cfg podsFor svc hostname ttl,
      ep.Targets ≠ [] ∧ ep.DNSName ≠ "" := by
  intro ep hep
  unfold extractHeadlessEndpoints at hep
  split at hep
  · simp at hep
  · rw [List.mem_flatMap] at hep
    obtain ⟨v, _, hin⟩ := hep
    split at hin
    · split at hin <;>
        · simp at hin
          rw [hin]
          exact ⟨by simp [NewEndpointWithTTL, NewEndpoint],
            headlessDomain_trim_ne v hostname hne hdot⟩
    · simp at hin

theorem extractNodePortEndpoints_wf (svc : Service)
    (nodeTargets : List String) (hostname : String) (ttl : Int) :
    ∀ ep ∈ extractNodePortEndpoints svc nodeTargets hostname ttl,
      ep.Targets ≠ [] ∧ ep.DNSName ≠ "" := by
  intro ep hep
  unfold extractNodePortEndpoints at hep
  rw [List.mem_flatMap] at hep
  obtain ⟨port, _, hin⟩ := hep
  split at hin
  · split at hin <;>
      · simp at hin
        rw [hin]
        exact ⟨by simp [NewEndpointWithTTL, NewEndpoint],
          nodePortRecordName_trim_ne_empty port hostname⟩
  · simp at hin

theorem extraEndpoints_wf (cfg : ServiceConfig)
    (podsFor : Service → Except KErr (List Pod)) (svc : Service)
    (hostname : String) (ttl : Int) (nodeTargets : List String)
    (hne : hostname ≠ "") (hdot : hostname.data.getLast? ≠ some '.') :
    ∀ ep ∈ extraEndpoints cfg podsFor svc hostname ttl nodeTargets,
      ep.Targets ≠ [] ∧ ep.DNSName ≠ "" := by
  intro ep hep
  unfold extraEndpoints at hep
  split at hep
  · split at hep
    · exact extractHeadlessEndpoints_wf cfg podsFor svc hostname ttl
        hne hdot ep hep
    · simp at hep
  · exact extractNodePortEndpoints_wf svc nodeTargets hostname ttl ep hep
  · simp at hep

theorem generateEndpoints_wf (cfg : ServiceConfig)
    (podsFor : Service → Except KErr (List Pod)) (svc : Service)
    (hostname : String) (nodeTargets : List String)
    (hne : hostname ≠ "") (hdot : hostname.data.getLast? ≠ some '.') :
    ∀ ep ∈ generateEndpoints cfg podsFor svc hostname nodeTargets,
      ep.Targets ≠ [] ∧ ep.DNSName ≠ "" := by
  intro ep hep
  unfold generateEndpoints at hep
  rw [trimSuffixDot_eq_self hdot] at hep
  rcases List.mem_append.mp hep with hx | hx
  · rcases List.mem_append.mp hx with hx2 | hx2
    · exact extraEndpoints_wf cfg podsFor svc hostname
        (getTTLFromAnnotations svc.Annotations) nodeTargets hne hdot ep hx2
    · split at hx2
      · simp at hx2
      · simp at hx2
        rw [hx2]
        refine ⟨?_, hne⟩
        rename_i hcond
        simpa using hcond
  · split at hx
    · simp at hx
    · simp at hx
      rw [hx]
      refine ⟨?_, hne⟩
      rename_i hcond
      simpa using hcond

theorem serviceOwnEndpoints_wf (cfg : ServiceConfig)
    (podsFor : Service → Except KErr (List Pod)) (svc : Service)
    (nodeTargets : List String)
    (Hann : ∀ h ∈ getHostnamesFromAnnotations svc.Annotations,
      h ≠ "" ∧ h.data.getLast? ≠ some '.') :
    ∀ ep ∈ serviceOwnEndpoints cfg podsFor svc nodeTargets,
      ep.Targets ≠ [] ∧ ep.DNSName ≠ "" := by
  intro ep hep
  unfold serviceOwnEndpoints at hep
  rw [List.mem_flatMap] at hep
  obtain ⟨h0, hh, hin⟩ := hep
  exact generateEndpoints_wf cfg podsFor svc h0 nodeTargets
    (Hann h0 hh).1 (Hann h0 hh).2 ep hin

theorem endpointsFromTemplate_wf (f : Service → Except KErr String)
    (cfg : ServiceConfig) (podsFor : Service → Except KErr (List Pod))
    (svc : Service) (nodeTargets : List String) (res : List Endpoint)
    (hok : endpointsFromTemplate f cfg podsFor svc nodeTargets
      = Except.ok res)
    (Ht : ∀ s, f svc = Except.ok s →
      ∀ h ∈ splitOnChar ',' (removeSpaces s),
        h ≠ "" ∧ h.data.getLast? ≠ some '.') :
    ∀ ep ∈ res, ep.Targets ≠ [] ∧ ep.DNSName ≠ "" := by
  intro ep hep
  unfold endpointsFromTemplate at hok
  cases hf : f svc with
  | error e =>
    rw [hf] at hok
    exact Except.noConfusion hok
  | ok s =>
    rw [hf] at hok
    dsimp only at hok
    injection hok with h2
    subst h2
    rw [List.mem_flatMap] at hep
    obtain ⟨h0, hh, hin⟩ := hep
    exact generateEndpoints_wf cfg podsFor svc h0 nodeTargets
      (Ht s hf h0 hh).1 (Ht s hf h0 hh).2 ep hin

theorem templateStep_wf (cfg : ServiceConfig)
    (podsFor : Service → Except KErr (List Pod)) (svc : Service)
    (nodeTargets : List String) (cur res : List Endpoint)
    (hok : templateStep cfg podsFor svc nodeTargets cur = Except.ok res)
    (hcur : ∀ ep ∈ cur, ep.Targets ≠ [] ∧ ep.DNSName ≠ "")
    (Ht : ∀ f, cfg.fqdnTemplate = some f → ∀ s, f svc = Except.ok s →
      ∀ h ∈ splitOnChar ',' (removeSpaces s),
        h ≠ "" ∧ h.data.getLast? ≠ some '.') :
    ∀ ep ∈ res, ep.Targets ≠ [] ∧ ep.DNSName ≠ "" := by
  intro ep hep
  unfold templateStep at hok
  cases hf : cfg.fqdnTemplate with
  | none =>
    rw [hf] at hok
    dsimp only at hok
    injection hok with h2
    subst h2
    exact hcur ep hep
  | some f =>
    rw [hf] at hok
    dsimp only at hok
    split at hok
    · cases he : endpointsFromTemplate f cfg podsFor svc nodeTargets with
      | error e =>
        rw [he] at hok
        exact Except.noConfusion hok
      | ok sE =>
        rw [he] at hok
        dsimp only at hok
        injection hok with h2
        subst h2
        have hsE := endpointsFromTemplate_wf f cfg podsFor svc nodeTargets
          sE he (Ht f hf)
        by_cases hcomb : cfg.combineFQDNAnnotation = true
        · rw [if_pos hcomb] at hep
          rcases List.mem_append.mp hep with h | h
          · exact hcur ep h
          · exact hsE ep h
        · rw [if_neg hcomb] at hep
          exact hsE ep hep
    · injection hok with h2
      subst h2
      exact hcur ep hep

theorem processServices_wf (cfg : ServiceConfig)
    (legacy : Service → List Endpoint)
    (podsFor : Service → Except KErr (List Pod))
    (nodeTargets : List String) (hcompat : cfg.compatibility = "") :
    ∀ l res, processServices cfg legacy podsFor nodeTargets l
        = Except.ok res →
      (∀ svc ∈ l, ∀ h ∈ getHostnamesFromAnnotations svc.Annotations,
        h ≠ "" ∧ h.data.getLast? ≠ some '.') →
      (∀ f, cfg.fqdnTemplate = some f → ∀ svc ∈ l, ∀ s,
        f svc = Except.ok s → ∀ h ∈ splitOnChar ',' (removeSpaces s),
          h ≠ "" ∧ h.data.getLast? ≠ some '.') →
      ∀ ep ∈ res, ep.Targets ≠ [] ∧ ep.DNSName ≠ "" := by
  intro l
  induction l with
  | nil =>
    intro res hok _ _ ep hep
    injection hok with h2
    subst h2
    simp at hep
  | cons svc rest ih =>
    intro res hok Hann Ht ep hep
    unfold processServices at hok
    by_cases hskip : controllerSkip svc.Annotations = true
    · rw [if_pos hskip] at hok
      exact ih res hok (fun s hs => Hann s (by simp [hs]))
        (fun f hf s hs => Ht f hf s (by simp [hs])) ep hep
    · rw [if_neg hskip] at hok
      dsimp only at hok
      split at hok
      · exact Except.noConfusion hok
      · rename_i svcE heq
        split at hok
        · exact Except.noConfusion hok
        · rename_i remaining hrest
          injection hok with h2
          subst h2
          have hsvcE : ∀ e2 ∈ svcE, e2.Targets ≠ [] ∧ e2.DNSName ≠ "" := by
            apply templateStep_wf cfg podsFor svc nodeTargets _ svcE heq
            · intro e2 he2
              split at he2
              · rename_i hcond
                rw [hcompat] at hcond
                simp at hcond
              · exact serviceOwnEndpoints_wf cfg podsFor svc nodeTargets
                  (Hann svc (by simp)) e2 he2
            · intro f hf s hs
              exact Ht f hf svc (by simp) s hs
          rcases List.mem_append.mp hep with h | h
          · split at h
            · simp at h
            · unfold setResourceLabelService at h
              rw [List.mem_map] at h
              obtain ⟨ep0, hep0, hmap⟩ := h
              obtain ⟨ht0, hn0⟩ := hsvcE ep0 hep0
              rw [← hmap]
              exact ⟨ht0, hn0⟩
          · exact ih remaining hrest (fun s hs => Hann s (by simp [hs]))
              (fun f hf s hs => Ht f hf s (by simp [hs])) ep h

theorem mem_of_filtered {cfg : ServiceConfig} {svcs : List Service}
    {svc : Service}
    (hs : svc ∈ (if cfg.serviceTypeFilter.isEmpty then
        filterByAnnotations cfg.annotationFilter svcs
      else filterByServiceType cfg.serviceTypeFilter
        (filterByAnnotations cfg.annotationFilter svcs))) :
    svc ∈ svcs := by
  have hsub : ∀ x, x ∈ filterByAnnotations cfg.annotationFilter svcs →
      x ∈ svcs := by
    intro x hx
    unfold filterByAnnotations at hx
    split at hx
    · exact hx
    · exact (List.mem_filter.mp hx).1
  split at hs
  · exact hsub _ hs
  · unfold filterByServiceType at hs
    exact hsub _ (List.mem_filter.mp hs).1

/-- Claim C7 (amended): with compatibility mode disabled, every Record
returned by a successful Endpoints run of the service adapter has at
least one target (zero-target accumulators are suppressed, headless
and SRV records are born with one target); and every Record's DNS name
is non-empty PROVIDED every consulted hostname — annotation entries
and template-split pieces — is non-empty and free of a trailing dot.
(The counterexample shows the name part fails without that proviso.) -/
theorem C7_records_wf (cfg : ServiceConfig)
    (legacy : Service → List Endpoint) (cluster : Cluster)
    (svcs : List Service) (eps : List Endpoint)
    (hcompat : cfg.compatibility = "")
    (hsvcs : cluster.servicesRes = Except.ok svcs)
    (hok : serviceEndpoints cfg legacy cluster = Except.ok eps)
    (Hann : ∀ svc ∈ svcs, ∀ h ∈ getHostnamesFromAnnotations svc.Annotations,
      h ≠ "" ∧ h.data.getLast? ≠ some '.')
    (Htmpl : ∀ f, cfg.fqdnTemplate = some f → ∀ svc ∈ svcs, ∀ s,
      f svc = Except.ok s → ∀ h ∈ splitOnChar ',' (removeSpaces s),
        h ≠ "" ∧ h.data.getLast? ≠ some '.') :
    ∀ ep ∈ eps, ep.Targets ≠ [] ∧ ep.DNSName ≠ "" := by
  intro ep hep
  unfold serviceEndpoints at hok
  rw [hsvcs] at hok
  dsimp only at hok
  split at hok
  · exact Except.noConfusion hok
  · rename_i nt hnt
    split at hok
    · exact Except.noConfusion hok
    · rename_i res hres
      injection hok with h2
      subst h2
      rw [List.mem_map] at hep
      obtain ⟨ep0, hep0, hmap⟩ := hep
      have hwf := processServices_wf cfg legacy cluster.podsFor nt hcompat
        _ res hres
        (fun svc hs => Hann svc (mem_of_filtered hs))
        (fun f hf svc hs => Htmpl f hf svc (mem_of_filtered hs))
        ep0 hep0
      rw [← hmap]
      exact ⟨sortTargets_ne_nil hwf.1, hwf.2⟩

/-- Witness for the amended C7: a load-balanced service with the
hostname annotation web.example.com; its single produced record has a
target and a non-empty name. -/
theorem C7_records_wf_witness :
    ({ DNSName := "web.example.com", RecordType := "A",
       Targets := ["1.2.3.4"], RecordTTL := 0,
       Labels := [(ResourceLabelKey, "service/default/web")] } :
        Endpoint).Targets ≠ []
    ∧ ({ DNSName := "web.example.com", RecordType := "A",
         Targets := ["1.2.3.4"], RecordTTL := 0,
         Labels := [(ResourceLabelKey, "service/default/web")] } :
        Endpoint).DNSName ≠ "" :=
  C7_records_wf
    { annotationFilter := none, compatibility := "",
      combineFQDNAnnotation := false, publishInternal := false,
      publishHostIP := false, fqdnTemplate := none, serviceTypeFilter := [] }
    (fun _ => [])
    { servicesRes := Except.ok
        [{ Namespace := "default", Name := "web",
           Annotations := [(hostnameAnnotationKey, "web.example.com")],
           SpecType := ServiceType.LoadBalancer, SpecClusterIP := "",
           SpecPorts := [],
           StatusLoadBalancerIngress := [{ IP := "1.2.3.4", Hostname := "" }] }],
      nodesRes := Except.ok [], podsFor := fun _ => Except.ok [] }
    [{ Namespace := "default", Name := "web",
       Annotations := [(hostnameAnnotationKey, "web.example.com")],
       SpecType := ServiceType.LoadBalancer, SpecClusterIP := "",
       SpecPorts := [],
       StatusLoadBalancerIngress := [{ IP := "1.2.3.4", Hostname := "" }] }]
    [{ DNSName := "web.example.com", RecordType := "A",
       Targets := ["1.2.3.4"], RecordTTL := 0,
       Labels := [(ResourceLabelKey, "service/default/web")] }]
    rfl rfl (by rfl) (by decide) (fun f hf => Option.noConfusion hf)
    { DNSName := "web.example.com", RecordType := "A",
      Targets := ["1.2.3.4"], RecordTTL := 0,
      Labels := [(ResourceLabelKey, "service/default/web")] }
    (by simp)

end ExternalDNS
